import Mathlib

/-!
# Verification of the afplay playback engine

A shallow embedding of the afplay audio playback engine's control-flow and
mixing-relevant code, together with proofs about the behaviour of its
sources, mixer, channel mapper and player facade.

Samples are modelled as integers: the properties under study concern
control flow, event emission, buffer zeroing and sample placement, never
floating-point arithmetic, and addition and copying of samples are exact
in either representation.

Wall-clock decisions (position-report rate limiting) and decoder/ring
outcomes are passed in as explicit oracle parameters, which makes every
function total and executable.
-/

/-- Fader states, per `utils::fader::FaderState`. Modelled from the spec:
`utils/fader.rs` is not part of the source corpus; the state set
{Stopped, FadingIn, FadingOut, Finished} is taken from spec section 4.3. -/
inductive FaderState where
  | stopped
  | fadingIn
  | fadingOut
  | finished
deriving DecidableEq, Repr

/-- Volume fader. Modelled from the spec: `utils/fader.rs` is not part of
the source corpus. Per spec section 4.3 it holds a state, a target volume
and a per-frame step; `process` advances the fade by the processed buffer's
frame count and latches `Finished` when the fade duration has elapsed.
The gain applied to samples is irrelevant to every claim below (no claim
inspects faded sample values), so only the state machine is modelled;
`targetVolume` is the linear target (0 after a fade-out, 1 after a
fade-in), `framesLeft` the remaining fade length in frames. -/
structure VolumeFader where
  state : FaderState
  targetVolume : Int
  framesLeft : Nat
deriving DecidableEq, Repr

/-- A freshly constructed fader (state `Stopped`, full volume). -/
def VolumeFader.new : VolumeFader :=
  { state := FaderState.stopped, targetVolume := 1, framesLeft := 0 }

/-- `start_fade_out(duration)`: target volume 0, state `FadingOut`. -/
def VolumeFader.startFadeOut (_f : VolumeFader) (durationFrames : Nat) : VolumeFader :=
  { state := FaderState.fadingOut, targetVolume := 0, framesLeft := durationFrames }

/-- `start_fade_in(duration)`: target volume 1, state `FadingIn`. -/
def VolumeFader.startFadeIn (_f : VolumeFader) (durationFrames : Nat) : VolumeFader :=
  { state := FaderState.fadingIn, targetVolume := 1, framesLeft := durationFrames }

/-- `start(duration)` as used by the streamed file source and the synth
source: starts the stop fade-out. -/
def VolumeFader.start (f : VolumeFader) (durationFrames : Nat) : VolumeFader :=
  f.startFadeOut durationFrames

/-- `process(buffer)`: advance an active fade by the buffer's frame count;
when the fade duration has elapsed the state latches `Finished`. -/
def VolumeFader.process (f : VolumeFader) (frames : Nat) : VolumeFader :=
  match f.state with
  | FaderState.fadingIn =>
      if f.framesLeft ≤ frames then
        { f with state := FaderState.finished, framesLeft := 0 }
      else
        { f with framesLeft := f.framesLeft - frames }
  | FaderState.fadingOut =>
      if f.framesLeft ≤ frames then
        { f with state := FaderState.finished, framesLeft := 0 }
      else
        { f with framesLeft := f.framesLeft - frames }
  | _ => f

/-- Playback status events sent from sources to the player, per
`player.rs` (`AudioFilePlaybackStatusEvent`). The `path` payload and the
`Duration` position payload carry no information relevant to the claims
and are omitted. -/
inductive PlaybackStatusEvent where
  | position (id : Nat)
  | stopped (id : Nat) (exhausted : Bool)
deriving DecidableEq, Repr

/-- True exactly for `Stopped` events. -/
def PlaybackStatusEvent.isStopped : PlaybackStatusEvent → Bool
  | PlaybackStatusEvent.stopped _ _ => true
  | _ => false

/-- Number of `Stopped` events in an event list. -/
def countStopped (events : List PlaybackStatusEvent) : Nat :=
  (events.filter PlaybackStatusEvent.isStopped).length

/-- Playback control messages of the preloaded file source, per the
`match msg` in `PreloadedFileSource::write` (`source/file/preloaded.rs`):
`Seek(Duration)`, `Read`, `Stop`. The seek target is modelled directly as
the target sample position (the code computes it from the `Duration` by
floating-point multiplication with the buffer rate and channel count). -/
inductive FilePlaybackMessage where
  | seek (positionSamples : Nat)
  | read
  | stop
deriving DecidableEq, Repr

/-- A resampler behaviour, abstracting `utils::resampler::AudioResampler`
(not part of the source corpus): given the number of available input
samples and the remaining output space, it yields
`(input_consumed, output_written)`. -/
def Resampler : Type := Nat → Nat → Nat × Nat

/-- Well-formedness of a resampler: it never consumes more input than
available and never writes more output than there is space for. -/
def ResamplerWF (rs : Resampler) : Prop :=
  ∀ inp out, (rs inp out).1 ≤ inp ∧ (rs inp out).2 ≤ out

/-- The identity resampler: copies as many samples as fit. -/
def rsId : Resampler := fun inp out => (min inp out, min inp out)

/-- Playback state of `PreloadedFileSource` (`source/file/preloaded.rs`).
The shared immutable buffer is represented by its sample count
(`bufferLen`): none of the claims inspects the decoded sample values.
`repeats` models the `repeat: usize` field, with `none` standing for
`usize::MAX` (repeat forever). `fadeOutFrames` models
`fade_out_duration: Option<Duration>` (in fade units; `some 0` is a zero
duration). `hasStatusSend` models whether `playback_status_send` is
`Some`. -/
structure PreloadedFileSource where
  fileId : Nat
  bufferLen : Nat
  bufferPos : Nat
  repeats : Option Nat
  volumeFader : VolumeFader
  fadeOutFrames : Option Nat
  channelCount : Nat
  hasStatusSend : Bool
  playbackFinished : Bool
deriving DecidableEq, Repr

/-- `is_exhausted()` of the preloaded file source. -/
def PreloadedFileSource.isExhausted (s : PreloadedFileSource) : Bool :=
  s.playbackFinished

/-- One step of the message-consumption loop at the top of
`PreloadedFileSource::write`: `Seek` clamps the position to
`[0, buffer.len()]` (and resets the resampler, which is stateless in this
model), `Read` does nothing, `Stop` starts the fade-out when a non-zero
`fade_out_duration` was configured and otherwise latches
`playback_finished`. -/
def PreloadedFileSource.applyMessage (s : PreloadedFileSource) :
    FilePlaybackMessage → PreloadedFileSource
  | FilePlaybackMessage.seek pos => { s with bufferPos := min pos s.bufferLen }
  | FilePlaybackMessage.read => s
  | FilePlaybackMessage.stop =>
      match s.fadeOutFrames with
      | some d =>
          if d ≠ 0 then { s with volumeFader := s.volumeFader.startFadeOut d }
          else { s with playbackFinished := true }
      | none => { s with playbackFinished := true }

/-- The main output loop of `PreloadedFileSource::write`: while the output
is not full, run the resampler on the remaining buffer slice, advance the
fader by the written frames, advance `buffer_pos` by the consumed input
samples, and on reaching the buffer end either wrap around (decrementing
`repeat` unless it is `usize::MAX`) or break. `fuel` bounds the number of
iterations (the Rust loop is a plain `while`); all theorems below hold for
every fuel value or instantiate it with more than enough. Returns the
final state and `total_written`. -/
def preloadedWriteLoop (rs : Resampler) (outputLen : Nat) :
    Nat → PreloadedFileSource → Nat → PreloadedFileSource × Nat
  | 0, s, total => (s, total)
  | Nat.succ fuel, s, total =>
      if total ≥ outputLen then (s, total)
      else
        let remainingInput := s.bufferLen - s.bufferPos
        let consumed := (rs remainingInput (outputLen - total)).1
        let written := (rs remainingInput (outputLen - total)).2
        let fader := s.volumeFader.process (written / s.channelCount)
        let pos' := s.bufferPos + consumed
        let total' := total + written
        if pos' ≥ s.bufferLen then
          match s.repeats with
          | some 0 => ({ s with bufferPos := pos', volumeFader := fader }, total')
          | some (Nat.succ n) =>
              preloadedWriteLoop rs outputLen fuel
                { s with bufferPos := 0, repeats := some n, volumeFader := fader } total'
          | none =>
              preloadedWriteLoop rs outputLen fuel
                { s with bufferPos := 0, volumeFader := fader } total'
        else
          preloadedWriteLoop rs outputLen fuel
            { s with bufferPos := pos', volumeFader := fader } total'

/-- Result of one `PreloadedFileSource::write` call: the new state, the
returned sample count, and the status events sent during the call (in
emission order). -/
structure PreloadedWriteResult where
  state : PreloadedFileSource
  written : Nat
  events : List PlaybackStatusEvent
deriving DecidableEq, Repr

/-- The section of `PreloadedFileSource::write` after the output loop,
applied to the post-loop state `s2` and `total_written`: optionally emit a
rate-limited `Position` event (`reportPos` is the outcome of the
wall-clock `should_report_pos` test) and, when the buffer end was reached
or the stop fade-out completed, emit a single `Stopped` event whose
`exhausted` flag is `buffer_pos >= buffer.len()`, latching
`playback_finished`. -/
def preloadedFinish (s2 : PreloadedFileSource) (total : Nat) (reportPos : Bool) :
    PreloadedWriteResult :=
  if s2.bufferPos ≥ s2.bufferLen
      ∨ (s2.volumeFader.state = FaderState.finished ∧ s2.volumeFader.targetVolume = 0) then
    ⟨{ s2 with playbackFinished := true }, total,
      (if s2.hasStatusSend ∧ reportPos then [PlaybackStatusEvent.position s2.fileId] else [])
        ++ (if s2.hasStatusSend then
              [PlaybackStatusEvent.stopped s2.fileId (decide (s2.bufferPos ≥ s2.bufferLen))]
            else [])⟩
  else
    ⟨s2, total,
      if s2.hasStatusSend ∧ reportPos then [PlaybackStatusEvent.position s2.fileId] else []⟩

/-- `PreloadedFileSource::write`: consume all pending control messages,
bail out returning 0 when playback already finished, run the output loop
and finish by emitting the due status events. -/
def PreloadedFileSource.write (rs : Resampler) (s : PreloadedFileSource)
    (msgs : List FilePlaybackMessage) (outputLen : Nat) (reportPos : Bool) :
    PreloadedWriteResult :=
  if (msgs.foldl PreloadedFileSource.applyMessage s).playbackFinished then
    ⟨msgs.foldl PreloadedFileSource.applyMessage s, 0, []⟩
  else
    preloadedFinish
      (preloadedWriteLoop rs outputLen (outputLen + 1)
        (msgs.foldl PreloadedFileSource.applyMessage s) 0).1
      (preloadedWriteLoop rs outputLen (outputLen + 1)
        (msgs.foldl PreloadedFileSource.applyMessage s) 0).2
      reportPos

/-- One call to `PreloadedFileSource::write`: the pending control
messages, the output buffer length and the wall-clock position-report
decision. -/
structure PreloadedCall where
  msgs : List FilePlaybackMessage
  outputLen : Nat
  reportPos : Bool
deriving DecidableEq, Repr

/-- Run a sequence of `write` calls against a preloaded file source,
collecting each call's result. -/
def preloadedRun (rs : Resampler) :
    PreloadedFileSource → List PreloadedCall → List PreloadedWriteResult
  | _, [] => []
  | s, c :: cs =>
      let r := PreloadedFileSource.write rs s c.msgs c.outputLen c.reportPos
      r :: preloadedRun rs r.state cs

/-! ## Streamed file source (`source/file/streamed.rs`) -/

/-- The state shared between `StreamedFileSource` (the audio-thread
consumer) and `StreamedFileWorker` (the decoder actor), per
`SharedFileWorkerState`. `totalSamples = none` models the `u64::MAX`
sentinel (total not yet known). -/
structure SharedFileWorkerState where
  position : Nat
  totalSamples : Option Nat
  isPlaying : Bool
  endOfFile : Bool
  isFadingOut : Bool
  fadeOutDuration : Nat
deriving DecidableEq, Repr

/-- The audio-thread side of the streamed file source
(`StreamedFileSource`). `ringBuffered` is the number of samples currently
readable from the SPSC ring buffer; `hasEventSend` models whether
`event_send` is `Some`. -/
structure StreamedFileSource where
  fileId : Nat
  ringBuffered : Nat
  stopFader : VolumeFader
  workerState : SharedFileWorkerState
  hasEventSend : Bool
  channelCount : Nat
  playbackFinished : Bool
deriving DecidableEq, Repr

/-- `is_exhausted()` of the streamed file source. -/
def StreamedFileSource.isExhausted (s : StreamedFileSource) : Bool :=
  s.playbackFinished

/-- Result of one `StreamedFileSource::write` call. -/
structure StreamedWriteResult where
  state : StreamedFileSource
  written : Nat
  events : List PlaybackStatusEvent
deriving DecidableEq, Repr

/-- `StreamedFileSource::write`: return 0 immediately when playback
finished; otherwise read up to `output.len()` samples from the ring
buffer, apply the stop fade-out when the worker signalled one (starting
the fader on first observation), optionally emit a `Position` event
(`reportPos` is the outcome of `should_report_pos`), and emit a single
`Stopped` event — whose `exhausted` flag is `written == 0 && end_of_file`
— when the worker is no longer playing, the stream is exhausted, or the
fade-out completed; this also latches `playback_finished` and clears the
worker's `is_playing` flag. -/
def StreamedFileSource.write (s : StreamedFileSource) (outputLen : Nat)
    (reportPos : Bool) : StreamedWriteResult :=
  if s.playbackFinished then ⟨s, 0, []⟩
  else
    let written := min outputLen s.ringBuffered
    let ring' := s.ringBuffered - written
    let ws := { s.workerState with position := s.workerState.position + written }
    let isStopping := ws.isFadingOut
    let fader :=
      if isStopping then
        let f0 :=
          if s.stopFader.state = FaderState.stopped then
            s.stopFader.start ws.fadeOutDuration
          else s.stopFader
        f0.process (written / s.channelCount)
      else s.stopFader
    let posEvents :=
      if s.hasEventSend ∧ reportPos then [PlaybackStatusEvent.position s.fileId] else []
    let isExhausted : Bool := written == 0 && ws.endOfFile
    let fadeoutCompleted : Bool := isStopping && fader.state == FaderState.finished
    if !ws.isPlaying || isExhausted || fadeoutCompleted then
      let stopState : StreamedFileSource :=
        { s with ringBuffered := ring', workerState := { ws with isPlaying := false },
                 stopFader := fader, playbackFinished := true }
      let stopEvents :=
        if s.hasEventSend then [PlaybackStatusEvent.stopped s.fileId isExhausted] else []
      ⟨stopState, written, posEvents ++ stopEvents⟩
    else
      ⟨{ s with ringBuffered := ring', workerState := ws, stopFader := fader },
        written, posEvents⟩

/-- One call to `StreamedFileSource::write`. Between two audio callbacks
the decoder actor may change the shared state and refill the ring buffer
arbitrarily; each call therefore carries the ring fill level and worker
state observed at call time. -/
structure StreamedCall where
  ring : Nat
  worker : SharedFileWorkerState
  outputLen : Nat
  reportPos : Bool
deriving DecidableEq, Repr

/-- Run a sequence of `write` calls against a streamed file source,
letting the (adversarial) decoder actor overwrite the shared state and
ring fill level before every call. -/
def streamedRun : StreamedFileSource → List StreamedCall → List StreamedWriteResult
  | _, [] => []
  | s, c :: cs =>
      let r := StreamedFileSource.write
        { s with ringBuffered := c.ring, workerState := c.worker } c.outputLen c.reportPos
      r :: streamedRun r.state cs

/-- The decoder actor's private state (`StreamedFileWorker`), restricted
to the fields the handlers below touch. `repeats = none` models
`usize::MAX` (repeat forever); `samplesToWrite` is the length of the
pending `samples_to_write` range. -/
structure StreamedFileWorker where
  repeats : Option Nat
  samplesWritten : Nat
  samplesToWrite : Nat
  isReading : Bool
  channelCount : Nat
  shared : SharedFileWorkerState
deriving DecidableEq, Repr

/-- `StreamedFileWorker::on_seek`: on a successful decoder seek
(`seekOutcome = some timestamp`) reset the pending packet range (or
re-kick reading when idle), store the new position in the shared state and
clear the ring buffer; a failed seek only logs. The repeat counter is not
touched on either path. -/
def StreamedFileWorker.onSeek (w : StreamedFileWorker) (seekOutcome : Option Nat) :
    StreamedFileWorker :=
  match seekOutcome with
  | some timestamp =>
      let position := timestamp * w.channelCount
      { w with
          samplesToWrite := if w.isReading then 0 else w.samplesToWrite,
          samplesWritten := position,
          shared := { w.shared with position := position } }
  | none => w

/-- `StreamedFileWorker::on_read`: `ringWrite` is the outcome of the
non-blocking ring-buffer write attempt (`some n` = `n` samples accepted,
`none` = ring full), `packet` the outcome of `read_packet`
(`some len` = a packet of `len` samples, `none` = EOF). On EOF with
remaining repeats the worker decrements the counter (unless repeating
forever) and seeks back to the start; with no repeats left it sets
`end_of_file` and publishes `total_samples`. -/
def StreamedFileWorker.onRead (w : StreamedFileWorker) (ringWrite : Option Nat)
    (packet : Option Nat) : StreamedFileWorker :=
  if ¬ w.shared.isPlaying then w
  else if w.samplesToWrite ≠ 0 then
    match ringWrite with
    | some n =>
        { w with
            samplesWritten := w.samplesWritten + n,
            samplesToWrite := w.samplesToWrite - n,
            isReading := true }
    | none => { w with isReading := false }
  else
    match packet with
    | some len => { w with samplesToWrite := len, isReading := true }
    | none =>
        match w.repeats with
        | some (Nat.succ n) =>
            { w with
                repeats := some n,
                samplesWritten := 0,
                samplesToWrite := 0,
                shared := { w.shared with position := 0 },
                isReading := true }
        | none =>
            { w with
                samplesWritten := 0,
                samplesToWrite := 0,
                shared := { w.shared with position := 0 },
                isReading := true }
        | some 0 =>
            { w with
                isReading := false,
                shared := { w.shared with
                    endOfFile := true,
                    totalSamples := some w.samplesWritten } }

/-! ## Dasp synth source (`source/synth/dasp.rs`) -/

/-- Synth playback control messages (`SynthPlaybackMessage`): `Stop`
carrying the fade-out duration. -/
inductive SynthPlaybackMessage where
  | stop (fadeoutFrames : Nat)
deriving DecidableEq, Repr

/-- `DaspSynthSource` state: `signalRemaining` is the number of samples
the wrapped `until_exhausted` dasp signal will still yield (the claims
never inspect the sample values). -/
structure DaspSynthSource where
  playbackId : Nat
  signalRemaining : Nat
  stopFader : VolumeFader
  hasEventSend : Bool
  playbackFinished : Bool
deriving DecidableEq, Repr

/-- `is_exhausted()` of the dasp synth source. -/
def DaspSynthSource.isExhausted (s : DaspSynthSource) : Bool :=
  s.playbackFinished

/-- Result of one `DaspSynthSource::write` call. -/
structure DaspWriteResult where
  state : DaspSynthSource
  written : Nat
  events : List PlaybackStatusEvent
deriving DecidableEq, Repr

/-- `DaspSynthSource::write`: receive at most one playback message
(`Stop(0)` sets the local `stop_playing`, a non-zero fade-out starts the
stop fader), return 0 when playback finished, run the signal into the
output, advance the fader, optionally emit a `Position` event, and when
`stop_playing`, the signal is exhausted (`written == 0`) or the fade-out
completed, latch `playback_finished` and emit a `Stopped` event whose
`exhausted` payload is `self.playback_finished` — read back from the field
that was just set to `true` (`source/synth/dasp.rs` lines 152-166). -/
def DaspSynthSource.write (s : DaspSynthSource) (msg : Option SynthPlaybackMessage)
    (outputLen : Nat) (reportPos : Bool) : DaspWriteResult :=
  let stopPlaying : Bool :=
    match msg with
    | some (SynthPlaybackMessage.stop d) => d = 0
    | none => false
  let fader0 :=
    match msg with
    | some (SynthPlaybackMessage.stop d) => if d = 0 then s.stopFader else s.stopFader.start d
    | none => s.stopFader
  let s0 := { s with stopFader := fader0 }
  if s0.playbackFinished then ⟨s0, 0, []⟩
  else
    let written := min outputLen s0.signalRemaining
    let fader := fader0.process written
    let s1 := { s0 with signalRemaining := s0.signalRemaining - written, stopFader := fader }
    let posEvents :=
      if s1.hasEventSend ∧ reportPos then [PlaybackStatusEvent.position s1.playbackId] else []
    let isExhausted : Bool := written == 0
    let fadeoutCompleted : Bool := fader.state == FaderState.finished
    if stopPlaying || isExhausted || fadeoutCompleted then
      let s2 := { s1 with playbackFinished := true }
      ⟨s2, written,
        posEvents ++
          (if s2.hasEventSend then [PlaybackStatusEvent.stopped s2.playbackId s2.playbackFinished]
          else [])⟩
    else ⟨s1, written, posEvents⟩

/-- One call to `DaspSynthSource::write`. -/
structure DaspCall where
  msg : Option SynthPlaybackMessage
  outputLen : Nat
  reportPos : Bool
deriving DecidableEq, Repr

/-- Run a sequence of `write` calls against a dasp synth source. -/
def daspRun : DaspSynthSource → List DaspCall → List DaspWriteResult
  | _, [] => []
  | s, c :: cs =>
      let r := DaspSynthSource.write s c.msg c.outputLen c.reportPos
      r :: daspRun r.state cs

/-! ## Mixer (`source/mixed.rs`)

The mixer owns `Arc<dyn AudioSource>` trait objects. A mixed-in source is
modelled abstractly through the source contract: it yields a stream of
samples (`pending`) and reports exhaustion (sticky, per the contract) from
the `write` call that can produce no more samples onward. Sample values
are integers. -/

/-- Abstract model of a source behind `Arc<dyn AudioSource>` as the mixer
sees it: `pending` are the samples its future `write` calls will yield in
order; `finished` is its sticky `is_exhausted()` flag, which turns true at
the first `write` that returns no samples. -/
structure MSource where
  pending : List Int
  finished : Bool
deriving DecidableEq, Repr

/-- One `write` of an abstract source into a scratch slice of length `n`:
yields up to `n` samples and flips `finished` when nothing was produced. -/
def MSource.write (s : MSource) (n : Nat) : List Int × MSource :=
  let chunk := s.pending.take n
  (chunk, { pending := s.pending.drop n, finished := s.finished || chunk.isEmpty })

/-- Pointwise sum of the common prefix of two sample lists, keeping the
tail of the first: models `for (o, i) in out.iter_mut().zip(chunk)
{ *o += *i }`. -/
def addSamples : List Int → List Int → List Int
  | out, [] => out
  | [], _ => []
  | o :: out, c :: cs => (o + c) :: addSamples out cs

/-- Add `chunk` pointwise into `out` starting at sample index `start`
(`output[total_written..]` zipped with `temp_out[..written]`). -/
def addInto : List Int → Nat → List Int → List Int
  | out, 0, chunk => addSamples out chunk
  | [], _ + 1, _ => []
  | o :: out, s + 1, chunk => o :: addInto out s chunk

/-- An entry of the mixer's `playing_sources` list
(`MixedPlayingSource`). `refCount` is the strong reference count of the
source's `Arc` as observed on the audio thread (`Arc::get_mut` succeeds
exactly when it is 1 and no weak references exist). -/
structure PlayingEntry where
  isActive : Bool
  playbackId : Nat
  source : MSource
  refCount : Nat
  startTime : Nat
  stopTime : Option Nat
deriving DecidableEq, Repr

/-- Result of the per-source inner loop of `MixedSource::write`. -/
structure LoopResult where
  out : List Int
  total : Nat
  source : MSource
  active : Bool
  stops : List Nat
deriving DecidableEq, Repr

/-- The `samples_until_stop` computation of the `'source` loop in
`MixedSource::write`: at source-relative position `pos + total / cc`,
with a pending stop time `some st`, the number of samples until the stop
when the stop is not in the past; `none` models the `u64::MAX` sentinel
(no pending stop or stop already passed). -/
def samplesUntilStop (cc pos total : Nat) : Option Nat → Option Nat
  | some st =>
      if st ≥ pos + total / cc then some ((st - (pos + total / cc)) * cc) else none
  | none => none

/-- The `samples_until_stop == 0` test deciding whether the stop control
message is sent in this iteration. -/
def sendStopNow (cc pos total : Nat) (stopTime : Option Nat) : Bool :=
  samplesUntilStop cc pos total stopTime == some 0

/-- This iteration's request size `to_write`: the remaining output,
clamped by the samples until the pending stop (reset to the `u64::MAX`
sentinel after the stop message fired) and by the scratch capacity. -/
def iterToWrite (cc tempLen pos total outLen : Nat) (stopTime : Option Nat) : Nat :=
  if sendStopNow cc pos total stopTime then min (outLen - total) tempLen
  else
    match samplesUntilStop cc pos total stopTime with
    | some k => min (min (outLen - total) k) tempLen
    | none => min (outLen - total) tempLen

/-- Prepend the stop messages sent in the current iteration to a later
loop result. -/
def LoopResult.withStops (pre : List Nat) (r : LoopResult) : LoopResult :=
  ⟨r.out, r.total, r.source, r.active, pre ++ r.stops⟩

/-- Pointwise sum of two equally long sample buffers (proof helper for
the mixer's additivity lemmas). -/
def zipAdd (a b : List Int) : List Int := List.zipWith (· + ·) a b

/-- Pointwise difference of two equally long sample buffers (proof
helper: the contribution one rendered source added into a buffer). -/
def zipSub (a b : List Int) : List Int := List.zipWith (· - ·) a b

/-- Add a fixed buffer `a` on top of a loop result's output (proof helper
for the additivity of the render loop). -/
def LoopResult.withAdd (a : List Int) (r : LoopResult) : LoopResult :=
  ⟨zipAdd a r.out, r.total, r.source, r.active, r.stops⟩

/-- The `'source` loop of `MixedSource::write` for one playing entry:
while the output is not full, compute the source-relative time, send a
`Stop` control message when `samples_until_stop` reaches 0, clamp this
iteration's request to `iterToWrite`, run the source, break marking the
entry inactive when it reports exhaustion, otherwise add the produced
chunk into the output and advance. `stops` collects the playback ids for
which a stop message was sent. `fuel` bounds the iterations; the caller
passes `out.length + 1`, which is enough as every non-breaking iteration
advances `total` by at least one. -/
def renderLoop (cc tempLen pos pid : Nat) (stopTime : Option Nat) :
    Nat → List Int → Nat → MSource → LoopResult
  | 0, out, total, src => ⟨out, total, src, true, []⟩
  | Nat.succ fuel, out, total, src =>
      if total ≥ out.length then ⟨out, total, src, true, []⟩
      else
        if (src.write (iterToWrite cc tempLen pos total out.length stopTime)).2.finished then
          ⟨out, total, (src.write (iterToWrite cc tempLen pos total out.length stopTime)).2,
            false, if sendStopNow cc pos total stopTime then [pid] else []⟩
        else
          LoopResult.withStops (if sendStopNow cc pos total stopTime then [pid] else [])
            (renderLoop cc tempLen pos pid stopTime fuel
              (addInto out total
                (src.write (iterToWrite cc tempLen pos total out.length stopTime)).1)
              (total + (src.write (iterToWrite cc tempLen pos total out.length stopTime)).1.length)
              (src.write (iterToWrite cc tempLen pos total out.length stopTime)).2)

/-- Outcome of rendering one playing entry inside `MixedSource::write`:
`panic` models the `Arc::get_mut(..).expect(..)` panic when the source
`Arc` is not uniquely owned; `breakAll` models the `break 'all_sources`
taken when the entry starts at or beyond the end of the current buffer. -/
inductive RenderOutcome where
  | panic
  | breakAll
  | ok (out : List Int) (entry : PlayingEntry) (stops : List Nat)
deriving DecidableEq, Repr

/-- The output sample offset at which a playing entry starts writing:
`frames_until_source_starts * channel_count` for entries starting in the
future, 0 otherwise. -/
def entryStartOffset (cc pos : Nat) (e : PlayingEntry) : Nat :=
  (if e.startTime > pos then e.startTime - pos else 0) * cc

/-- Package a finished per-entry loop result as a `RenderOutcome`. -/
def loopToOutcome (e : PlayingEntry) (r : LoopResult) : RenderOutcome :=
  RenderOutcome.ok r.out { e with source := r.source, isActive := r.active } r.stops

/-- Render one playing entry: skip ahead by `frames_until_source_starts`
frames when the entry starts in the future, breaking out of the whole
source loop when it starts at or beyond the end of the buffer; then take
exclusive ownership of the source (`Arc::get_mut`, panicking when other
references are alive) and run the inner loop. -/
def renderOne (cc tempLen pos : Nat) (out : List Int) (e : PlayingEntry) : RenderOutcome :=
  if e.startTime > pos ∧ e.startTime - pos ≥ out.length / cc then RenderOutcome.breakAll
  else if e.refCount ≠ 1 then RenderOutcome.panic
  else
    loopToOutcome e
      (renderLoop cc tempLen pos e.playbackId e.stopTime (out.length + 1) out
        (entryStartOffset cc pos e) e.source)

/-- Result of rendering the whole playing list. `broke` records whether
the `'all_sources` loop was left early (all remaining entries skipped). -/
structure RenderAllResult where
  out : List Int
  entries : List PlayingEntry
  stops : List Nat
  broke : Bool
deriving DecidableEq, Repr

/-- The `'all_sources` loop of `MixedSource::write`: render each playing
entry in order, adding its output into the shared buffer; a `breakAll`
skips every remaining entry (they stay in the list untouched); a `panic`
aborts the audio callback (`none`). -/
def renderAll (cc tempLen pos : Nat) : List PlayingEntry → List Int → Option RenderAllResult
  | [], out => some ⟨out, [], [], false⟩
  | e :: rest, out =>
      match renderOne cc tempLen pos out e with
      | RenderOutcome.panic => none
      | RenderOutcome.breakAll => some ⟨out, e :: rest, [], true⟩
      | RenderOutcome.ok out' e' stops =>
          match renderAll cc tempLen pos rest out' with
          | none => none
          | some r => some ⟨r.out, e' :: r.entries, stops ++ r.stops, r.broke⟩

/-- Messages sent from the player to the mixer (`MixedSourceMsg`).
`AddSource` additionally records the strong reference count of the
arriving source `Arc`. -/
inductive MixedSourceMsg where
  | addSource (playbackId : Nat) (source : MSource) (refCount : Nat) (sampleTime : Nat)
  | stopSource (playbackId : Nat) (sampleTime : Nat)
  | removeAllSources
  | removeAllPendingSources
deriving DecidableEq, Repr

/-- `StopSource` handling: set `stop_time` on the first entry with the
given playback id (the Rust loop breaks after the first match). -/
def setStopTimeFirst (pid st : Nat) : List PlayingEntry → List PlayingEntry
  | [] => []
  | e :: rest =>
      if e.playbackId = pid then { e with stopTime := some st } :: rest
      else e :: setStopTimeFirst pid st rest

/-- Drain the mixer's event queue: `AddSource` appends a fresh active
entry (flagging that new sources arrived), `StopSource` sets the matching
entry's stop time, `RemoveAllPendingSources` retains only entries already
started at the callback time, `RemoveAllSources` clears the list. The
entries removed here are shipped to the drop channel, which carries no
information relevant to the claims and is not tracked. -/
def processMixerMsgs (pos : Nat) (msgs : List MixedSourceMsg) (playing : List PlayingEntry) :
    List PlayingEntry × Bool :=
  msgs.foldl
    (fun acc msg =>
      match msg with
      | MixedSourceMsg.addSource pid src refCount sampleTime =>
          (acc.1 ++ [{ isActive := true, playbackId := pid, source := src,
                       refCount := refCount, startTime := sampleTime, stopTime := none }],
            true)
      | MixedSourceMsg.stopSource pid st => (setStopTimeFirst pid st acc.1, acc.2)
      | MixedSourceMsg.removeAllPendingSources =>
          (acc.1.filter (fun e => decide (e.startTime ≤ pos)), acc.2)
      | MixedSourceMsg.removeAllSources => ([], acc.2))
    (playing, false)

/-- Insert an entry into a list sorted by `startTime` ascending. -/
def insertByStart (e : PlayingEntry) : List PlayingEntry → List PlayingEntry
  | [] => [e]
  | x :: xs => if e.startTime < x.startTime then e :: x :: xs else x :: insertByStart e xs

/-- Sort the playing list by `startTime` ascending
(`sort_by(|a, b| a.start_time.cmp(&b.start_time))`). The order among
entries with equal start times is irrelevant to the claims. -/
def sortByStart (l : List PlayingEntry) : List PlayingEntry :=
  l.foldr insertByStart []

/-- Result of one `MixedSource::write` call: the output buffer, the
returned sample count, the retained playing list and the playback ids
stop messages were sent to. -/
structure MixedWriteResult where
  out : List Int
  ret : Nat
  entries : List PlayingEntry
  stops : List Nat
deriving DecidableEq, Repr

/-- The playing list after draining the event queue, re-sorted by
`startTime` when new sources arrived. -/
def playingAfterMsgs (pos : Nat) (msgs : List MixedSourceMsg) (playing : List PlayingEntry) :
    List PlayingEntry :=
  if (processMixerMsgs pos msgs playing).2 then sortByStart (processMixerMsgs pos msgs playing).1
  else (processMixerMsgs pos msgs playing).1

/-- `MixedSource::write` (`source/mixed.rs` lines 120-251): drain the
event queue, re-sort on new sources, return 0 with the output untouched
when no sources are playing, otherwise zero the entire output, render and
sum every playing source, retain only the still-active entries and return
`output.len()`. `none` models the `Arc::get_mut` panic. -/
def MixedSource.write (cc tempLen : Nat) (msgs : List MixedSourceMsg)
    (playing : List PlayingEntry) (out : List Int) (pos : Nat) : Option MixedWriteResult :=
  if (playingAfterMsgs pos msgs playing).isEmpty then
    some ⟨out, 0, playingAfterMsgs pos msgs playing, []⟩
  else
    match renderAll cc tempLen pos (playingAfterMsgs pos msgs playing)
        (List.replicate out.length 0) with
    | none => none
    | some r => some ⟨r.out, out.length, r.entries.filter (fun e => e.isActive), r.stops⟩

/-! ## Channel mapper (`source/mapped.rs`) -/

/-- `ChannelMappedSource`: wraps an inner source and converts its channel
layout. `bufferLen` is the scratch buffer capacity (`16 * 1024` at
construction). -/
structure ChannelMappedSource where
  source : MSource
  inputChannels : Nat
  outputChannels : Nat
  bufferLen : Nat
deriving DecidableEq, Repr

/-- Map one input frame onto one output frame, per the nested `match` in
`ChannelMappedSource::write`: mono input copies channel 0 to output
channels 0 and 1 (or just 0 for mono output); multi-channel input copies
channels 0 and 1 (or just channel 0 for mono output). Output channels not
written keep their previous content ("Assume the rest is implicitly
silence"). -/
def mapFrame (ic oc : Nat) (i o : List Int) : List Int :=
  if ic = 1 then
    if oc = 1 then o.set 0 (i.getD 0 0)
    else (o.set 0 (i.getD 0 0)).set 1 (i.getD 0 0)
  else
    if oc = 1 then o.set 0 (i.getD 0 0)
    else (o.set 0 (i.getD 0 0)).set 1 (i.getD 1 0)

/-- Process `n` frames of the zipped `chunks_exact(input)` /
`chunks_exact_mut(output)` iteration: each step maps one `ic`-sized input
frame onto one `oc`-sized output frame; the remainder of the output is
left untouched. -/
def mapWriteFrames (ic oc : Nat) : Nat → List Int → List Int → List Int
  | 0, _, out => out
  | Nat.succ n, inp, out =>
      mapFrame ic oc (inp.take ic) (out.take oc) ++ mapWriteFrames ic oc n (inp.drop ic) (out.drop oc)

/-- The samples the inner source produces for one mapper write call:
`source.write(&mut buffer[..buffer_max])` with
`buffer_max = min((output.len() / output_channels) * input_channels,
buffer.len())`. -/
def mapperChunk (s : ChannelMappedSource) (outLen : Nat) : List Int :=
  (s.source.write (min ((outLen / s.outputChannels) * s.inputChannels) s.bufferLen)).1

/-- The number of whole frames the zipped
`chunks_exact(input)`/`chunks_exact_mut(output)` iteration processes. -/
def mapperFrameCount (s : ChannelMappedSource) (outLen : Nat) : Nat :=
  min ((mapperChunk s outLen).length / s.inputChannels) (outLen / s.outputChannels)

/-- `ChannelMappedSource::write`: pull up to
`(output.len() / output_channels) * input_channels` samples (clamped by
the scratch capacity) from the inner source, then map the produced whole
frames onto the output's whole frames; returns `output.len()`. -/
def ChannelMappedSource.write (s : ChannelMappedSource) (out : List Int) :
    ChannelMappedSource × List Int × Nat :=
  ({ s with source :=
      (s.source.write (min ((out.length / s.outputChannels) * s.inputChannels) s.bufferLen)).2 },
    mapWriteFrames s.inputChannels s.outputChannels (mapperFrameCount s out.length)
      (mapperChunk s out.length) out,
    out.length)

/-! ## Player facade (`player.rs`) -/

/-- The error kinds of the crate. Modelled from the spec: `error.rs` is
not part of the source corpus; the variants follow the taxonomy of spec
section 7 together with the constructors `player.rs` actually names
(`Error::MediaFileNotFound`, `Error::SendError`, `Error::ParameterError`,
`Error::AudioDecodingError`). -/
inductive Error where
  | mediaFileNotFound
  | sendError
  | parameterError
  | audioDecodingError
  | notSupported
  | resamplerError
deriving DecidableEq, Repr

/-- The two kinds of `PlaybackMessageSender` the player keeps per playback
id: a file source's channel or a synth source's channel. -/
inductive PlaybackMessageSenderKind where
  | file
  | synth
deriving DecidableEq, Repr

/-- `AudioFilePlayer::seek_source` (`player.rs` lines 349-368): look the
playback id up in `playing_sources`; on a file sender, send `Seek` and
return `Ok(())`; on a synth sender, log a warning and return `Ok(())`; on
an unknown id return `Err(Error::MediaFileNotFound)`. The second
component records the `Seek(position)` message sent to a file source, if
any. -/
def seekSource (playingSources : List (Nat × PlaybackMessageSenderKind))
    (playbackId : Nat) (position : Nat) : Except Error Unit × Option (Nat × Nat) :=
  match playingSources.find? (fun p => p.1 == playbackId) with
  | some (_, PlaybackMessageSenderKind.file) => (Except.ok (), some (playbackId, position))
  | some (_, PlaybackMessageSenderKind.synth) => (Except.ok (), none)
  | none => (Except.error Error.mediaFileNotFound, none)

/-- A preloaded file source that has finished playback. -/
def preloadedFinishedEx : PreloadedFileSource :=
  { fileId := 1, bufferLen := 4, bufferPos := 4, repeats := some 0,
    volumeFader := VolumeFader.new, fadeOutFrames := some 2, channelCount := 2,
    hasStatusSend := true, playbackFinished := true }

/-- A streamed file source that has finished playback, and a worker state
the decoder actor might expose afterwards. -/
def streamedFinishedEx : StreamedFileSource :=
  { fileId := 2, ringBuffered := 0, stopFader := VolumeFader.new,
    workerState := { position := 96, totalSamples := some 96, isPlaying := false,
                     endOfFile := true, isFadingOut := false, fadeOutDuration := 0 },
    hasEventSend := true, channelCount := 2, playbackFinished := true }

/-- A worker state observed at a later streamed write call. -/
def workerStateEx : SharedFileWorkerState :=
  { position := 96, totalSamples := some 96, isPlaying := true,
    endOfFile := false, isFadingOut := true, fadeOutDuration := 3 }

/-- A dasp synth source that has finished playback. -/
def daspFinishedEx : DaspSynthSource :=
  { playbackId := 3, signalRemaining := 7, stopFader := VolumeFader.new,
    hasEventSend := true, playbackFinished := true }

/-! ## Claim C2 -/

/-- A dasp synth source that is still playing (100 signal samples left)
when a `Stop` with zero fade-out arrives. -/
def daspStopBugEx : DaspSynthSource :=
  { playbackId := 1, signalRemaining := 100, stopFader := VolumeFader.new,
    hasEventSend := true, playbackFinished := false }

/-! ## Claim C3 -/

/-- Total number of `Stopped` events over a sequence of preloaded write
results. -/
def totalStopped (results : List PreloadedWriteResult) : Nat :=
  (results.map (fun r => countStopped r.events)).sum

/-- A preloaded file source with no stop fade-out configured, still
playing from the start of its buffer, with a status channel attached. -/
def preloadedStopNoFadeEx : PreloadedFileSource :=
  { fileId := 5, bufferLen := 6, bufferPos := 0, repeats := some 0,
    volumeFader := VolumeFader.new, fadeOutFrames := none, channelCount := 1,
    hasStatusSend := true, playbackFinished := false }

/-- A playing mixer entry used in concrete witnesses. -/
def mixEntryEx : PlayingEntry :=
  { isActive := true, playbackId := 3,
    source := { pending := [1, 1, 1, 1, 1, 1], finished := false },
    refCount := 1, startTime := 0, stopTime := none }

theorem rsId_wf : ResamplerWF rsId := by
  intro inp out
  constructor
  · exact Nat.min_le_left _ _
  · exact Nat.min_le_right _ _

/-! ## Renderer lemmas about stop dispatch -/

theorem renderLoop_stops_past (cc tempLen pos pid st : Nat) (h : st < pos) :
    ∀ (fuel : Nat) (out : List Int) (total : Nat) (src : MSource),
      (renderLoop cc tempLen pos pid (some st) fuel out total src).stops = [] := by
  intro fuel
  induction fuel with
  | zero => intro out total src; rfl
  | succ n ih =>
      intro out total src
      have hge : ¬ st ≥ pos + total / cc := fun hge =>
        Nat.not_le.mpr h (Nat.le_trans (Nat.le_add_right pos _) hge)
      have hsend : sendStopNow cc pos total (some st) = false := by
        simp [sendStopNow, samplesUntilStop, hge]
      unfold renderLoop
      split
      · rfl
      · split
        · simp [hsend]
        · simp [LoopResult.withStops, hsend, ih]

theorem renderLoop_stops_now (cc tempLen pos pid : Nat) (n : Nat) (out : List Int)
    (src : MSource) (hout : 0 < out.length) :
    pid ∈ (renderLoop cc tempLen pos pid (some pos) (Nat.succ n) out 0 src).stops := by
  have hsend : sendStopNow cc pos 0 (some pos) = true := by
    simp [sendStopNow, samplesUntilStop]
  have hnotfull : ¬ 0 ≥ out.length := by omega
  unfold renderLoop
  rw [if_neg hnotfull]
  split
  · simp [hsend]
  · simp [LoopResult.withStops, hsend]

/-! ## Index lemmas for sample lists -/

theorem getD_set_eq_int (l : List Int) (i : Nat) (x : Int) (h : i < l.length) :
    (l.set i x).getD i 0 = x := by
  induction l generalizing i with
  | nil => simp at h
  | cons a t ih =>
      cases i with
      | zero => rfl
      | succ j => exact ih j (Nat.lt_of_succ_lt_succ h)

theorem getD_set_ne_int (l : List Int) (i j : Nat) (x : Int) (h : i ≠ j) :
    (l.set i x).getD j 0 = l.getD j 0 := by
  induction l generalizing i j with
  | nil => simp
  | cons a t ih =>
      cases i with
      | zero =>
          cases j with
          | zero => exact absurd rfl h
          | succ m => rfl
      | succ i' =>
          cases j with
          | zero => rfl
          | succ m => exact ih i' m fun hh => h (by rw [hh])

theorem getD_take_int (l : List Int) (m j : Nat) (h : j < m) :
    (l.take m).getD j 0 = l.getD j 0 := by
  induction l generalizing m j with
  | nil => simp
  | cons a t ih =>
      cases m with
      | zero => exact absurd h (Nat.not_lt_zero j)
      | succ m' =>
          cases j with
          | zero => rfl
          | succ j' => exact ih m' j' (Nat.lt_of_succ_lt_succ h)

theorem getD_drop_int (l : List Int) (m i : Nat) :
    (l.drop m).getD i 0 = l.getD (m + i) 0 := by
  induction l generalizing m with
  | nil => simp
  | cons a t ih =>
      cases m with
      | zero => simp
      | succ m' =>
          have harith : m' + 1 + i = (m' + i) + 1 := by omega
          rw [harith]
          show (t.drop m').getD i 0 = t.getD (m' + i) 0
          exact ih m'

theorem mapFrame_length (ic oc : Nat) (i o : List Int) :
    (mapFrame ic oc i o).length = o.length := by
  unfold mapFrame
  split_ifs <;> simp

theorem mapFrame_getD (ic oc : Nat) (i o : List Int) (ho : oc ≤ o.length) (k : Nat)
    (hk : k < oc) :
    (mapFrame ic oc i o).getD k 0 =
      if k = 0 then i.getD 0 0
      else if k = 1 then (if ic = 1 then i.getD 0 0 else i.getD 1 0)
      else o.getD k 0 := by
  have h0 : 0 < o.length := by omega
  unfold mapFrame
  by_cases h2 : oc = 1
  · have hk0 : k = 0 := by omega
    subst hk0
    by_cases h1 : ic = 1 <;>
      simp only [h1, h2, if_true, if_false, if_pos rfl] <;>
      rw [getD_set_eq_int _ _ _ h0]
  · have hlen2 : 1 < (o.set 0 (i.getD 0 0)).length := by
      simp only [List.length_set]
      omega
    by_cases h1 : ic = 1
    · simp only [h1, h2, if_true, if_false]
      rcases k with _ | _ | k2
      · rw [getD_set_ne_int _ 1 0 _ (by omega), getD_set_eq_int _ _ _ h0]; simp
      · rw [getD_set_eq_int _ _ _ hlen2]; simp
      · rw [getD_set_ne_int _ 1 (k2 + 2) _ (by omega),
            getD_set_ne_int _ 0 (k2 + 2) _ (by omega)]
        simp
    · simp only [h1, h2, if_true, if_false]
      rcases k with _ | _ | k2
      · rw [getD_set_ne_int _ 1 0 _ (by omega), getD_set_eq_int _ _ _ h0]; simp
      · rw [getD_set_eq_int _ _ _ hlen2]; simp [h1]
      · rw [getD_set_ne_int _ 1 (k2 + 2) _ (by omega),
            getD_set_ne_int _ 0 (k2 + 2) _ (by omega)]
        simp

theorem mapWriteFrames_length (ic oc : Nat) :
    ∀ (n : Nat) (inp out : List Int), n * oc ≤ out.length →
      (mapWriteFrames ic oc n inp out).length = out.length := by
  intro n
  induction n with
  | zero => intro inp out _; rfl
  | succ n ih =>
      intro inp out h
      have hexp : (n + 1) * oc = n * oc + oc := by ring
      have hoc : oc ≤ out.length := by omega
      show (mapFrame ic oc (inp.take ic) (out.take oc)
          ++ mapWriteFrames ic oc n (inp.drop ic) (out.drop oc)).length = out.length
      rw [List.length_append, mapFrame_length, List.length_take,
        ih (inp.drop ic) (out.drop oc) (by rw [List.length_drop]; omega),
        List.length_drop, Nat.min_eq_left hoc]
      omega

theorem mapWriteFrames_getD_tail (ic oc : Nat) :
    ∀ (n : Nat) (inp out : List Int) (m : Nat), n * oc ≤ out.length → n * oc ≤ m →
      (mapWriteFrames ic oc n inp out).getD m 0 = out.getD m 0 := by
  intro n
  induction n with
  | zero => intro inp out m _ _; rfl
  | succ n ih =>
      intro inp out m h hm
      have hexp : (n + 1) * oc = n * oc + oc := by ring
      have hoc : oc ≤ out.length := by omega
      have hfl : (mapFrame ic oc (inp.take ic) (out.take oc)).length = oc := by
        rw [mapFrame_length, List.length_take, Nat.min_eq_left hoc]
      show (mapFrame ic oc (inp.take ic) (out.take oc)
          ++ mapWriteFrames ic oc n (inp.drop ic) (out.drop oc)).getD m 0 = out.getD m 0
      rw [List.getD_append_right _ _ _ _ (by omega), hfl,
        ih (inp.drop ic) (out.drop oc) (m - oc) (by rw [List.length_drop]; omega) (by omega),
        getD_drop_int]
      congr 1
      omega

theorem mapWriteFrames_getD_frame (ic oc : Nat) (hic : 1 ≤ ic) :
    ∀ (n : Nat) (inp out : List Int) (j k : Nat), n * oc ≤ out.length → j < n → k < oc →
      (mapWriteFrames ic oc n inp out).getD (j * oc + k) 0 =
        (if k = 0 then inp.getD (j * ic) 0
         else if k = 1 then (if ic = 1 then inp.getD (j * ic) 0 else inp.getD (j * ic + 1) 0)
         else out.getD (j * oc + k) 0) := by
  intro n
  induction n with
  | zero => intro inp out j k _ hj _; exact absurd hj (Nat.not_lt_zero j)
  | succ n ih =>
      intro inp out j k h hj hk
      have hexp : (n + 1) * oc = n * oc + oc := by ring
      have hoc : oc ≤ out.length := by omega
      have hfl : (mapFrame ic oc (inp.take ic) (out.take oc)).length = oc := by
        rw [mapFrame_length, List.length_take, Nat.min_eq_left hoc]
      show (mapFrame ic oc (inp.take ic) (out.take oc)
          ++ mapWriteFrames ic oc n (inp.drop ic) (out.drop oc)).getD (j * oc + k) 0 = _
      cases j with
      | zero =>
          simp only [Nat.zero_mul, Nat.zero_add]
          rw [List.getD_append _ _ _ _ (by omega),
            mapFrame_getD ic oc _ _ (by rw [List.length_take, Nat.min_eq_left hoc]) k hk]
          by_cases hk0 : k = 0
          · simp only [hk0, if_pos rfl]
            exact getD_take_int inp ic 0 (by omega)
          · by_cases hk1 : k = 1
            · simp only [hk0, hk1, if_false, if_pos rfl]
              by_cases hic1 : ic = 1
              · simp only [hic1, if_pos rfl]
                exact getD_take_int inp 1 0 (by omega)
              · simp only [hic1, if_false]
                exact getD_take_int inp ic 1 (by omega)
            · simp only [hk0, hk1, if_false]
              exact getD_take_int out oc k hk
      | succ j' =>
          have hidx : (j' + 1) * oc + k = oc + (j' * oc + k) := by ring
          rw [List.getD_append_right _ _ _ _ (by omega), hfl]
          have hsub : (j' + 1) * oc + k - oc = j' * oc + k := by omega
          rw [hsub,
            ih (inp.drop ic) (out.drop oc) j' k (by rw [List.length_drop]; omega)
              (Nat.lt_of_succ_lt_succ hj) hk,
            getD_drop_int, getD_drop_int, getD_drop_int]
          have e1 : ic + j' * ic = (j' + 1) * ic := by ring
          have e2 : ic + (j' * ic + 1) = (j' + 1) * ic + 1 := by ring
          have e3 : oc + (j' * oc + k) = (j' + 1) * oc + k := by ring
          rw [e1, e2, e3]

/-! ## Helper lemmas -/

theorem preloaded_applyMessage_keeps_finished (s : PreloadedFileSource)
    (msg : FilePlaybackMessage) (h : s.playbackFinished = true) :
    (s.applyMessage msg).playbackFinished = true := by
  cases msg with
  | seek p => simpa [PreloadedFileSource.applyMessage] using h
  | read => simpa [PreloadedFileSource.applyMessage] using h
  | stop =>
      cases hf : s.fadeOutFrames with
      | none => simp [PreloadedFileSource.applyMessage, hf]
      | some d =>
          by_cases hd : d ≠ 0 <;> simp [PreloadedFileSource.applyMessage, hf, hd, h]

theorem preloaded_foldl_keeps_finished (msgs : List FilePlaybackMessage) :
    ∀ s : PreloadedFileSource, s.playbackFinished = true →
      (msgs.foldl PreloadedFileSource.applyMessage s).playbackFinished = true := by
  induction msgs with
  | nil => intro s h; simpa using h
  | cons m ms ih =>
      intro s h
      simpa using ih (s.applyMessage m) (preloaded_applyMessage_keeps_finished s m h)

theorem preloaded_write_when_finished (rs : Resampler) (s : PreloadedFileSource)
    (msgs : List FilePlaybackMessage) (n : Nat) (rp : Bool)
    (h : s.playbackFinished = true) :
    PreloadedFileSource.write rs s msgs n rp
      = ⟨msgs.foldl PreloadedFileSource.applyMessage s, 0, []⟩ := by
  have h1 := preloaded_foldl_keeps_finished msgs s h
  simp [PreloadedFileSource.write, h1]

theorem streamed_write_when_finished (s : StreamedFileSource) (n : Nat) (rp : Bool)
    (h : s.playbackFinished = true) :
    StreamedFileSource.write s n rp = ⟨s, 0, []⟩ := by
  simp [StreamedFileSource.write, h]

theorem dasp_write_when_finished (s : DaspSynthSource) (msg : Option SynthPlaybackMessage)
    (n : Nat) (rp : Bool) (h : s.playbackFinished = true) :
    ∃ s', DaspSynthSource.write s msg n rp = ⟨s', 0, []⟩ ∧ s'.playbackFinished = true := by
  cases msg with
  | none =>
      exact ⟨{ s with playbackFinished := true },
        by simp [DaspSynthSource.write, h], rfl⟩
  | some m =>
      cases m with
      | stop d =>
          by_cases hd : d = 0
          · exact ⟨{ s with playbackFinished := true },
              by simp [DaspSynthSource.write, h, hd], rfl⟩
          · exact ⟨{ s with stopFader := s.stopFader.start d, playbackFinished := true },
              by simp [DaspSynthSource.write, h, hd], rfl⟩

/-- C1, preloaded part: once exhausted, every later write returns 0 and
the source stays exhausted. -/
theorem preloadedRun_sticky (rs : Resampler) (calls : List PreloadedCall) :
    ∀ s : PreloadedFileSource, s.isExhausted = true →
      ∀ r ∈ preloadedRun rs s calls, r.written = 0 ∧ r.state.isExhausted = true := by
  induction calls with
  | nil => intro s _ r hr; simp [preloadedRun] at hr
  | cons c cs ih =>
      intro s hs r hr
      have hw := preloaded_write_when_finished rs s c.msgs c.outputLen c.reportPos hs
      have hfin : (PreloadedFileSource.write rs s c.msgs c.outputLen
          c.reportPos).state.isExhausted = true := by
        rw [hw]
        exact preloaded_foldl_keeps_finished c.msgs s hs
      simp only [preloadedRun, List.mem_cons] at hr
      rcases hr with rfl | hr
      · exact ⟨by rw [hw], hfin⟩
      · exact ih _ hfin r hr

/-- C1, streamed part. -/
theorem streamedRun_sticky (calls : List StreamedCall) :
    ∀ s : StreamedFileSource, s.isExhausted = true →
      ∀ r ∈ streamedRun s calls, r.written = 0 ∧ r.state.isExhausted = true := by
  induction calls with
  | nil => intro s _ r hr; simp [streamedRun] at hr
  | cons c cs ih =>
      intro s hs r hr
      have hw := streamed_write_when_finished
        { s with ringBuffered := c.ring, workerState := c.worker } c.outputLen c.reportPos hs
      simp only [streamedRun, List.mem_cons] at hr
      rcases hr with rfl | hr
      · rw [hw]; exact ⟨rfl, hs⟩
      · rw [hw] at hr
        refine ih _ ?_ r hr
        exact hs

/-- C1, synth part. -/
theorem daspRun_sticky (calls : List DaspCall) :
    ∀ s : DaspSynthSource, s.isExhausted = true →
      ∀ r ∈ daspRun s calls, r.written = 0 ∧ r.state.isExhausted = true := by
  induction calls with
  | nil => intro s _ r hr; simp [daspRun] at hr
  | cons c cs ih =>
      intro s hs r hr
      obtain ⟨s', hw, hs'⟩ := dasp_write_when_finished s c.msg c.outputLen c.reportPos hs
      simp only [daspRun, List.mem_cons] at hr
      rcases hr with rfl | hr
      · rw [hw]; exact ⟨rfl, hs'⟩
      · rw [hw] at hr; exact ih _ hs' r hr

/-! ## Claim C1 -/

/-- C1: for every source kind (preloaded file, streamed file, dasp synth)
and every sequence of subsequent write calls — with arbitrary pending
control messages, buffer sizes, report decisions and (for the streamed
source) arbitrary interleaved decoder-actor activity — once
`is_exhausted()` has returned true, every subsequent `write` returns 0 and
`is_exhausted()` remains true: exhaustion is sticky and idempotent. -/
theorem c1_exhaustion_sticky :
    (∀ (rs : Resampler) (s : PreloadedFileSource) (calls : List PreloadedCall),
      s.isExhausted = true →
        ∀ r ∈ preloadedRun rs s calls, r.written = 0 ∧ r.state.isExhausted = true)
    ∧ (∀ (s : StreamedFileSource) (calls : List StreamedCall),
      s.isExhausted = true →
        ∀ r ∈ streamedRun s calls, r.written = 0 ∧ r.state.isExhausted = true)
    ∧ (∀ (s : DaspSynthSource) (calls : List DaspCall),
      s.isExhausted = true →
        ∀ r ∈ daspRun s calls, r.written = 0 ∧ r.state.isExhausted = true) :=
  ⟨fun rs s calls => preloadedRun_sticky rs calls s,
   fun s calls => streamedRun_sticky calls s,
   fun s calls => daspRun_sticky calls s⟩

/-- Witness for C1: each part of the theorem applied at a concrete
exhausted source and a concrete call sequence. -/
theorem c1_exhaustion_sticky_witness :
    (preloadedFinishedEx.isExhausted = true
      ∧ ∀ r ∈ preloadedRun rsId preloadedFinishedEx
          [⟨[FilePlaybackMessage.seek 1], 6, true⟩, ⟨[FilePlaybackMessage.stop], 4, false⟩],
          r.written = 0 ∧ r.state.isExhausted = true)
    ∧ (streamedFinishedEx.isExhausted = true
      ∧ ∀ r ∈ streamedRun streamedFinishedEx [⟨32, workerStateEx, 8, true⟩],
          r.written = 0 ∧ r.state.isExhausted = true)
    ∧ (daspFinishedEx.isExhausted = true
      ∧ ∀ r ∈ daspRun daspFinishedEx [⟨some (SynthPlaybackMessage.stop 0), 4, false⟩],
          r.written = 0 ∧ r.state.isExhausted = true) :=
  ⟨⟨by decide, c1_exhaustion_sticky.1 rsId preloadedFinishedEx _ (by decide)⟩,
   ⟨by decide, c1_exhaustion_sticky.2.1 streamedFinishedEx _ (by decide)⟩,
   ⟨by decide, c1_exhaustion_sticky.2.2 daspFinishedEx _ (by decide)⟩⟩

/-- C2, evaluated at the failing input: a dasp synth source that is
terminated by a stop request (`Stop` with zero fade-out) while its signal
still has samples to produce emits `Stopped` with `exhausted = true` —
the code sends `exhausted: self.playback_finished` right after setting
that field to `true` (`source/synth/dasp.rs` lines 152-166) — where the
claim and the `exhausted` field's own documentation in `player.rs`
("false when manually stopped") require `exhausted = false`. -/
theorem c2_synth_stop_reports_exhausted_true :
    (DaspSynthSource.write daspStopBugEx (some (SynthPlaybackMessage.stop 0)) 4 false).events
      = [PlaybackStatusEvent.stopped 1 true]
    ∧ daspStopBugEx.signalRemaining ≠ 0 := by
  decide

/-- Counterexample to C3: a preloaded source that is terminated by a
`Stop` message with an absent fade-out duration latches
`playback_finished` and emits no `Stopped` event in that call nor in any
later call — zero events over its whole remaining lifetime, not exactly
one. -/
theorem c3_counterexample :
    totalStopped (preloadedRun rsId preloadedStopNoFadeEx
        [⟨[FilePlaybackMessage.stop], 4, false⟩, ⟨[], 4, true⟩, ⟨[], 8, false⟩]) = 0
    ∧ (PreloadedFileSource.write rsId preloadedStopNoFadeEx
        [FilePlaybackMessage.stop] 4 false).state.playbackFinished = true := by
  decide

theorem countStopped_append (xs ys : List PlaybackStatusEvent) :
    countStopped (xs ++ ys) = countStopped xs + countStopped ys := by
  simp [countStopped, List.filter_append]

theorem preloadedFinish_countStopped_le_one (s2 : PreloadedFileSource) (total : Nat)
    (rp : Bool) : countStopped (preloadedFinish s2 total rp).events ≤ 1 := by
  unfold preloadedFinish
  split_ifs <;>
    simp [countStopped, List.filter_append, PlaybackStatusEvent.isStopped]

theorem countStopped_write_le_one (rs : Resampler) (s : PreloadedFileSource)
    (msgs : List FilePlaybackMessage) (n : Nat) (rp : Bool) :
    countStopped (PreloadedFileSource.write rs s msgs n rp).events ≤ 1 := by
  unfold PreloadedFileSource.write
  split
  · simp [countStopped]
  · exact preloadedFinish_countStopped_le_one _ _ _

theorem preloadedFinish_stopped_implies_finished (s2 : PreloadedFileSource) (total : Nat)
    (rp : Bool) (h : 0 < countStopped (preloadedFinish s2 total rp).events) :
    (preloadedFinish s2 total rp).state.playbackFinished = true := by
  unfold preloadedFinish at h ⊢
  split_ifs at h ⊢ <;>
    simp_all [countStopped, PlaybackStatusEvent.isStopped]

theorem write_stopped_implies_finished (rs : Resampler) (s : PreloadedFileSource)
    (msgs : List FilePlaybackMessage) (n : Nat) (rp : Bool)
    (h : 0 < countStopped (PreloadedFileSource.write rs s msgs n rp).events) :
    (PreloadedFileSource.write rs s msgs n rp).state.playbackFinished = true := by
  unfold PreloadedFileSource.write at h ⊢
  split at h
  case isTrue hcond => simp [countStopped] at h
  case isFalse hcond =>
      rw [if_neg hcond]
      exact preloadedFinish_stopped_implies_finished _ _ _ h

theorem preloadedRun_finished_totalStopped (rs : Resampler) (calls : List PreloadedCall) :
    ∀ s : PreloadedFileSource, s.playbackFinished = true →
      totalStopped (preloadedRun rs s calls) = 0 := by
  induction calls with
  | nil => intro s _; simp [preloadedRun, totalStopped]
  | cons c cs ih =>
      intro s hs
      have hw := preloaded_write_when_finished rs s c.msgs c.outputLen c.reportPos hs
      have hfin : (c.msgs.foldl PreloadedFileSource.applyMessage s).playbackFinished = true :=
        preloaded_foldl_keeps_finished c.msgs s hs
      simp only [preloadedRun, totalStopped, List.map_cons, List.sum_cons]
      rw [hw]
      simpa [countStopped, totalStopped] using ih _ hfin

theorem preloaded_applyMessage_fadeOut (s : PreloadedFileSource) (msg : FilePlaybackMessage) :
    (s.applyMessage msg).fadeOutFrames = s.fadeOutFrames := by
  cases msg with
  | seek p => rfl
  | read => rfl
  | stop =>
      cases hf : s.fadeOutFrames with
      | none => simp [PreloadedFileSource.applyMessage, hf]
      | some d => by_cases hd : d ≠ 0 <;> simp [PreloadedFileSource.applyMessage, hf, hd]

theorem preloaded_stop_no_fade_latches (s : PreloadedFileSource)
    (h : s.fadeOutFrames = none ∨ s.fadeOutFrames = some 0) :
    (s.applyMessage FilePlaybackMessage.stop).playbackFinished = true := by
  rcases h with h | h <;> simp [PreloadedFileSource.applyMessage, h]

theorem preloaded_foldl_stop_no_fade (msgs : List FilePlaybackMessage) :
    ∀ s : PreloadedFileSource,
      (s.fadeOutFrames = none ∨ s.fadeOutFrames = some 0) →
      FilePlaybackMessage.stop ∈ msgs →
      (msgs.foldl PreloadedFileSource.applyMessage s).playbackFinished = true := by
  induction msgs with
  | nil => intro s _ hm; simp at hm
  | cons m ms ih =>
      intro s hf hm
      rcases List.mem_cons.mp hm with rfl | hm
      · exact preloaded_foldl_keeps_finished ms _ (preloaded_stop_no_fade_latches s hf)
      · refine ih (s.applyMessage m) ?_ hm
        rw [preloaded_applyMessage_fadeOut]
        exact hf

/-- C3, amended: a `Stopped` event is emitted at most once per preloaded
source over any sequence of write calls; any write that emits one latches
`playback_finished`; and a source terminated by a `Stop` message while a
zero or absent stop fade-out is configured latches `playback_finished`
without emitting any event at all (so such sources never produce a
`Stopped` event). -/
theorem c3_stopped_at_most_once :
    (∀ (rs : Resampler) (s : PreloadedFileSource) (calls : List PreloadedCall),
      totalStopped (preloadedRun rs s calls) ≤ 1)
    ∧ (∀ (rs : Resampler) (s : PreloadedFileSource) (msgs : List FilePlaybackMessage)
        (n : Nat) (rp : Bool),
        0 < countStopped (PreloadedFileSource.write rs s msgs n rp).events →
        (PreloadedFileSource.write rs s msgs n rp).state.playbackFinished = true)
    ∧ (∀ (rs : Resampler) (s : PreloadedFileSource) (msgs : List FilePlaybackMessage)
        (n : Nat) (rp : Bool),
        s.fadeOutFrames = none ∨ s.fadeOutFrames = some 0 →
        FilePlaybackMessage.stop ∈ msgs →
        (PreloadedFileSource.write rs s msgs n rp).events = []
        ∧ (PreloadedFileSource.write rs s msgs n rp).state.playbackFinished = true) := by
  refine ⟨?_, write_stopped_implies_finished, ?_⟩
  · intro rs s calls
    induction calls generalizing s with
    | nil => simp [preloadedRun, totalStopped]
    | cons c cs ih =>
        simp only [preloadedRun, totalStopped, List.map_cons, List.sum_cons]
        rcases Nat.eq_zero_or_pos (countStopped (PreloadedFileSource.write rs s c.msgs
          c.outputLen c.reportPos).events) with h0 | hpos
        · rw [h0]
          simpa [totalStopped] using
            ih (PreloadedFileSource.write rs s c.msgs c.outputLen c.reportPos).state
        · have hfin := write_stopped_implies_finished rs s c.msgs c.outputLen c.reportPos hpos
          have hrest := preloadedRun_finished_totalStopped rs cs _ hfin
          have hle := countStopped_write_le_one rs s c.msgs c.outputLen c.reportPos
          simp only [totalStopped] at hrest
          omega
  · intro rs s msgs n rp hf hm
    have h1 := preloaded_foldl_stop_no_fade msgs s hf hm
    constructor <;> simp [PreloadedFileSource.write, h1]

/-- Witness for C3's amended theorem: a concrete preloaded source played
to its natural end emits exactly one `Stopped` event over three calls
(discharging part 1 at a concrete input), part 2 at that same call, and
part 3 at the zero-fade stop input. -/
theorem c3_stopped_at_most_once_witness :
    totalStopped (preloadedRun rsId
        { preloadedStopNoFadeEx with fileId := 6 }
        [⟨[], 4, false⟩, ⟨[], 4, false⟩, ⟨[], 4, false⟩]) ≤ 1
    ∧ ((0 : Nat) < countStopped (PreloadedFileSource.write rsId
          { preloadedStopNoFadeEx with fileId := 6, bufferPos := 4 } [] 4
          false).events
        ∧ (PreloadedFileSource.write rsId
            { preloadedStopNoFadeEx with fileId := 6, bufferPos := 4 } [] 4
            false).state.playbackFinished = true)
    ∧ ((preloadedStopNoFadeEx.fadeOutFrames = none
          ∨ preloadedStopNoFadeEx.fadeOutFrames = some 0)
        ∧ (PreloadedFileSource.write rsId preloadedStopNoFadeEx
            [FilePlaybackMessage.stop] 4 false).events = []
        ∧ (PreloadedFileSource.write rsId preloadedStopNoFadeEx
            [FilePlaybackMessage.stop] 4 false).state.playbackFinished = true) :=
  ⟨c3_stopped_at_most_once.1 rsId _ _,
   ⟨by decide,
    c3_stopped_at_most_once.2.1 rsId _ [] 4 false (by decide)⟩,
   ⟨Or.inl rfl,
    c3_stopped_at_most_once.2.2 rsId preloadedStopNoFadeEx [FilePlaybackMessage.stop] 4 false
      (Or.inl rfl) (by decide)⟩⟩

/-! ## Claim C4 -/

/-- Counterexample to C4: seeking a playback id that is known to the
player and refers to a synth source returns `Ok(())` (after logging a
warning), not a `NotSupported` error. -/
theorem c4_counterexample :
    (seekSource [(7, PlaybackMessageSenderKind.synth)] 7 1000).1 = Except.ok ()
    ∧ (Except.ok () : Except Error Unit) ≠ Except.error Error.notSupported :=
  ⟨rfl, by simp⟩

/-- C4, amended: `seek_source` returns `Err(Error::MediaFileNotFound)`
(and sends nothing) when the id is unknown; for a known file source it
sends `Seek(position)` to the source and returns `Ok(())`; for a known
synth source it logs a warning and returns `Ok(())` without sending
anything — it does not return a `NotSupported` error. -/
theorem c4_seek_source_behaviour
    (sources : List (Nat × PlaybackMessageSenderKind)) (pid posn : Nat) :
    (sources.find? (fun p => p.1 == pid) = none →
      seekSource sources pid posn = (Except.error Error.mediaFileNotFound, none))
    ∧ (∀ k, sources.find? (fun p => p.1 == pid) = some (k, PlaybackMessageSenderKind.file) →
      seekSource sources pid posn = (Except.ok (), some (pid, posn)))
    ∧ (∀ k, sources.find? (fun p => p.1 == pid) = some (k, PlaybackMessageSenderKind.synth) →
      seekSource sources pid posn = (Except.ok (), none)) := by
  refine ⟨fun h => ?_, fun k h => ?_, fun k h => ?_⟩ <;> simp [seekSource, h]

/-- Witness for C4's amended theorem at concrete player maps. -/
theorem c4_seek_source_behaviour_witness :
    seekSource [(1, PlaybackMessageSenderKind.file)] 2 500
      = (Except.error Error.mediaFileNotFound, none)
    ∧ seekSource [(1, PlaybackMessageSenderKind.file)] 1 500 = (Except.ok (), some (1, 500))
    ∧ seekSource [(7, PlaybackMessageSenderKind.synth)] 7 500 = (Except.ok (), none) :=
  ⟨(c4_seek_source_behaviour [(1, PlaybackMessageSenderKind.file)] 2 500).1 (by decide),
   (c4_seek_source_behaviour [(1, PlaybackMessageSenderKind.file)] 1 500).2.1 1 (by decide),
   (c4_seek_source_behaviour [(7, PlaybackMessageSenderKind.synth)] 7 500).2.2 7 (by decide)⟩

/-! ## Claim C5 -/

/-- Counterexample to C5: a mixer write call with an empty playing list
returns 0 — not `output.len()` — and leaves the output buffer contents
untouched rather than zeroing them. -/
theorem c5_counterexample :
    MixedSource.write 2 8192 [] [] [5, 5, 5, 5] 0 = some ⟨[5, 5, 5, 5], 0, [], []⟩
    ∧ (0 : Nat) ≠ ([5, 5, 5, 5] : List Int).length
    ∧ ([5, 5, 5, 5] : List Int) ≠ [0, 0, 0, 0] := by
  decide

/-- C5, amended: when the playing list is empty the mixer returns 0 and
does not touch the output; when it is non-empty the call's whole result is
independent of the output buffer's prior contents (the buffer is zeroed
before mixing) and, when no panic occurs, the returned sample count is
`output.len()`. -/
theorem c5_mixer_zeroes_and_returns_len :
    (∀ (cc tempLen : Nat) (out : List Int) (pos : Nat),
      MixedSource.write cc tempLen [] [] out pos = some ⟨out, 0, [], []⟩)
    ∧ (∀ (cc tempLen : Nat) (playing : List PlayingEntry) (out out' : List Int) (pos : Nat),
      playing ≠ [] → out.length = out'.length →
      (MixedSource.write cc tempLen [] playing out pos).map (fun r => (r.out, r.entries, r.stops))
        = (MixedSource.write cc tempLen [] playing out' pos).map
            (fun r => (r.out, r.entries, r.stops)))
    ∧ (∀ (cc tempLen : Nat) (playing : List PlayingEntry) (out : List Int) (pos : Nat)
        (r : MixedWriteResult),
      playing ≠ [] → MixedSource.write cc tempLen [] playing out pos = some r →
      r.ret = out.length) := by
  refine ⟨?_, ?_, ?_⟩
  · intro cc tempLen out pos
    simp [MixedSource.write, playingAfterMsgs, processMixerMsgs]
  · intro cc tempLen playing out out' pos hne hlen
    have hemp : (playingAfterMsgs pos [] playing).isEmpty = false := by
      simp [playingAfterMsgs, processMixerMsgs]
      cases playing with
      | nil => exact absurd rfl hne
      | cons a l => simp
    unfold MixedSource.write
    rw [hemp, hlen]
    simp only [Bool.false_eq_true, if_false]
  · intro cc tempLen playing out pos r hne hw
    have hemp : (playingAfterMsgs pos [] playing).isEmpty = false := by
      simp [playingAfterMsgs, processMixerMsgs]
      cases playing with
      | nil => exact absurd rfl hne
      | cons a l => simp
    unfold MixedSource.write at hw
    rw [hemp] at hw
    simp only [Bool.false_eq_true, if_false] at hw
    cases hr : renderAll cc tempLen pos (playingAfterMsgs pos [] playing)
        (List.replicate out.length 0) with
    | none => rw [hr] at hw; exact absurd hw (by simp)
    | some rr =>
        rw [hr] at hw
        have h := Option.some.inj hw
        rw [← h]

/-- Witness for C5's amended theorem at concrete inputs. -/
theorem c5_mixer_zeroes_and_returns_len_witness :
    MixedSource.write 2 8192 [] [] [5, 5, 5, 5] 7 = some ⟨[5, 5, 5, 5], 0, [], []⟩
    ∧ (MixedSource.write 1 8192 [] [mixEntryEx] [9, 9, 9, 9] 0).map
          (fun r => (r.out, r.entries, r.stops))
        = (MixedSource.write 1 8192 [] [mixEntryEx] [5, 6, 7, 8] 0).map
            (fun r => (r.out, r.entries, r.stops))
    ∧ (∀ r, MixedSource.write 1 8192 [] [mixEntryEx] [9, 9, 9, 9] 0 = some r →
        r.ret = ([9, 9, 9, 9] : List Int).length) :=
  ⟨c5_mixer_zeroes_and_returns_len.1 2 8192 [5, 5, 5, 5] 7,
   c5_mixer_zeroes_and_returns_len.2.1 1 8192 [mixEntryEx] [9, 9, 9, 9] [5, 6, 7, 8] 0
     (by decide) (by decide),
   fun r hr => c5_mixer_zeroes_and_returns_len.2.2 1 8192 [mixEntryEx] [9, 9, 9, 9] 0 r
     (by decide) hr⟩

/-! ## Claim C6 -/

/-- Counterexample to C6: a playing entry whose scheduled `stop_frame`
(5) already lies strictly in the past at callback time (frame position
10) does not have a `Stop` control message sent during the call — the
code only fires when `stop_time_in_frames >= source_time.pos_in_frames`
and the countdown hits exactly 0 — and the `stop_frame` is not cleared
either. -/
theorem c6_counterexample :
    (MixedSource.write 1 8192 [] [{ mixEntryEx with stopTime := some 5 }] [9, 9, 9, 9] 10).map
        (fun r => (r.stops, r.entries.map (fun e => e.stopTime)))
      = some ([], [some 5]) := by
  decide

/-- C6, amended: for a playing entry with a scheduled stop frame, the
mixer sends the `Stop` control message exactly when the render position
reaches the stop frame: a stop frame strictly before the callback's frame
position never fires (neither in this call nor later, since positions only
grow), a stop frame equal to the callback position fires during the call,
and the entry's `stop_time` is never cleared — repeated sends are
prevented by the position comparison alone. -/
theorem c6_stop_message_dispatch (cc tempLen pos : Nat) (out : List Int)
    (e : PlayingEntry) (st : Nat) (hstart : e.startTime ≤ pos) (href : e.refCount = 1)
    (hstop : e.stopTime = some st) :
    (st < pos →
      ∃ out' e' stops, renderOne cc tempLen pos out e = RenderOutcome.ok out' e' stops
        ∧ stops = [] ∧ e'.stopTime = some st)
    ∧ (st = pos → 0 < out.length →
      ∃ out' e' stops, renderOne cc tempLen pos out e = RenderOutcome.ok out' e' stops
        ∧ e.playbackId ∈ stops ∧ e'.stopTime = some st) := by
  have hnb : ¬ (e.startTime > pos ∧ e.startTime - pos ≥ out.length / cc) := by
    intro h
    exact absurd h.1 (Nat.not_lt.mpr hstart)
  have hoffset : entryStartOffset cc pos e = 0 := by
    simp [entryStartOffset, Nat.not_lt.mpr hstart]
  have hok : renderOne cc tempLen pos out e =
      loopToOutcome e (renderLoop cc tempLen pos e.playbackId e.stopTime (out.length + 1) out
        (entryStartOffset cc pos e) e.source) := by
    unfold renderOne
    rw [if_neg hnb, if_neg (by simp [href])]
  rw [hok, hoffset, hstop]
  unfold loopToOutcome
  constructor
  · intro hpast
    exact ⟨_, _, _, rfl,
      renderLoop_stops_past cc tempLen pos e.playbackId st hpast _ out 0 e.source, hstop⟩
  · intro heq hlen
    rw [heq]
    exact ⟨_, _, _, rfl,
      renderLoop_stops_now cc tempLen pos e.playbackId out.length out e.source hlen,
      heq ▸ hstop⟩

/-- Witness for C6's amended theorem at concrete entries: a stop frame of
5 at callback position 10 produces no stop send, a stop frame of 10 at
position 10 sends the stop to playback id 3. -/
theorem c6_stop_message_dispatch_witness :
    ((5 : Nat) < 10
      ∧ ∃ out' e' stops,
          renderOne 1 8192 10 [9, 9, 9, 9] { mixEntryEx with stopTime := some 5 }
            = RenderOutcome.ok out' e' stops ∧ stops = [] ∧ e'.stopTime = some 5)
    ∧ ((0 : Nat) < ([9, 9, 9, 9] : List Int).length
      ∧ ∃ out' e' stops,
          renderOne 1 8192 10 [9, 9, 9, 9] { mixEntryEx with stopTime := some 10 }
            = RenderOutcome.ok out' e' stops
          ∧ ({ mixEntryEx with stopTime := some 10 } : PlayingEntry).playbackId ∈ stops
          ∧ e'.stopTime = some 10) :=
  ⟨⟨by decide,
    (c6_stop_message_dispatch 1 8192 10 [9, 9, 9, 9] { mixEntryEx with stopTime := some 5 } 5
      (by decide) (by decide) (by decide)).1 (by decide)⟩,
   ⟨by decide,
    (c6_stop_message_dispatch 1 8192 10 [9, 9, 9, 9] { mixEntryEx with stopTime := some 10 } 10
      (by decide) (by decide) (by decide)).2 rfl (by decide)⟩⟩

/-! ## Claim C9 -/

/-- C9: for both file source kinds, handling a `Seek` leaves the
remaining repeat counter unchanged, and the counter is decremented only
when the decoder reaches end-of-file with repeats left (`none` on the
repeat counter models `usize::MAX`, repeat forever, which is never
decremented): (1) the preloaded source's `Seek` message handler keeps
`repeat`; (2) the streamed worker's `on_seek` keeps `repeat` whether the
decoder seek succeeds or fails; (3) the streamed worker's `on_read` with a
decoded packet keeps `repeat`; (4) `on_read` at EOF decrements `repeat`
exactly when the worker is still playing, has no pending packet samples,
and repeats remain. -/
theorem c9_seek_preserves_repeats :
    (∀ (s : PreloadedFileSource) (posn : Nat),
      (s.applyMessage (FilePlaybackMessage.seek posn)).repeats = s.repeats)
    ∧ (∀ (w : StreamedFileWorker) (outcome : Option Nat),
      (w.onSeek outcome).repeats = w.repeats)
    ∧ (∀ (w : StreamedFileWorker) (ringWrite : Option Nat) (len : Nat),
      (w.onRead ringWrite (some len)).repeats = w.repeats)
    ∧ (∀ (w : StreamedFileWorker) (ringWrite : Option Nat),
      (w.onRead ringWrite none).repeats =
        if w.shared.isPlaying = true ∧ w.samplesToWrite = 0 then
          match w.repeats with
          | some (Nat.succ n) => some n
          | r => r
        else w.repeats) := by
  refine ⟨fun s posn => rfl, fun w outcome => ?_, fun w ringWrite len => ?_, fun w ringWrite => ?_⟩
  · cases outcome <;> rfl
  · by_cases hp : w.shared.isPlaying = true
    · by_cases hs : w.samplesToWrite = 0
      · simp [StreamedFileWorker.onRead, hp, hs]
      · cases ringWrite <;> simp [StreamedFileWorker.onRead, hp, hs]
    · simp [StreamedFileWorker.onRead, hp]
  · by_cases hp : w.shared.isPlaying = true
    · by_cases hs : w.samplesToWrite = 0
      · rcases hrep : w.repeats with _ | (_ | n) <;>
          simp [StreamedFileWorker.onRead, hp, hs, hrep]
      · cases ringWrite <;> simp [StreamedFileWorker.onRead, hp, hs]
    · simp [StreamedFileWorker.onRead, hp]

/-! ## Claim C10 -/

theorem renderOne_ok_of (cc tempLen pos : Nat) (out : List Int) (e : PlayingEntry)
    (h1 : ¬ (e.startTime > pos ∧ e.startTime - pos ≥ out.length / cc))
    (h2 : e.refCount = 1) :
    renderOne cc tempLen pos out e =
      loopToOutcome e (renderLoop cc tempLen pos e.playbackId e.stopTime (out.length + 1) out
        (entryStartOffset cc pos e) e.source) := by
  unfold renderOne
  rw [if_neg h1, if_neg (by simp [h2])]

theorem renderAll_panic (cc tempLen pos : Nat) :
    ∀ (playing : List PlayingEntry) (out : List Int),
      (∀ e ∈ playing, e.startTime ≤ pos) →
      (∃ e ∈ playing, e.refCount ≠ 1) →
      renderAll cc tempLen pos playing out = none := by
  intro playing
  induction playing with
  | nil => intro out _ hex; simp at hex
  | cons e rest ih =>
      intro out hstart hex
      have hnb : ¬ (e.startTime > pos ∧ e.startTime - pos ≥ out.length / cc) := by
        intro h
        exact absurd h.1 (Nat.not_lt.mpr (hstart e (List.mem_cons_self e rest)))
      by_cases hr : e.refCount = 1
      · rcases hex with ⟨e', he', hne⟩
        rcases List.mem_cons.mp he' with rfl | he'
        · exact absurd hr hne
        · rw [renderAll, renderOne_ok_of cc tempLen pos out e hnb hr]
          dsimp only [loopToOutcome]
          rw [ih _ (fun x hx => hstart x (List.mem_cons_of_mem e hx)) ⟨e', he', hne⟩]
      · rw [renderAll]
        unfold renderOne
        rw [if_neg hnb, if_pos hr]

/-- C10: in a mixer write call, every playing entry that is actually
rendered must be exclusively owned: if any entry carries a source `Arc`
with another live reference (strong count ≠ 1) while all entries start at
or before the callback position (so none is skipped by the early break),
the write call panics on the audio thread — `Arc::get_mut(..).expect(..)`
— instead of skipping the entry or degrading gracefully. -/
theorem c10_nonunique_arc_panics (cc tempLen : Nat) (playing : List PlayingEntry)
    (out : List Int) (pos : Nat)
    (hstart : ∀ e ∈ playing, e.startTime ≤ pos)
    (hex : ∃ e ∈ playing, e.refCount ≠ 1) :
    MixedSource.write cc tempLen [] playing out pos = none := by
  have hplaying : playingAfterMsgs pos [] playing = playing := by
    simp [playingAfterMsgs, processMixerMsgs]
  have hne : playing ≠ [] := by
    rcases hex with ⟨e, he, _⟩
    intro hnil
    rw [hnil] at he
    simp at he
  have hemp : (playingAfterMsgs pos [] playing).isEmpty = false := by
    rw [hplaying]
    cases playing with
    | nil => exact absurd rfl hne
    | cons a l => rfl
  unfold MixedSource.write
  rw [hemp]
  simp only [Bool.false_eq_true, if_false]
  rw [hplaying, renderAll_panic cc tempLen pos playing _ hstart hex]

/-- Witness for C10: a concrete mixer write call on an already-started
entry whose source `Arc` has strong count 2 panics (`none`). -/
theorem c10_nonunique_arc_panics_witness :
    MixedSource.write 1 8192 [] [{ mixEntryEx with refCount := 2 }] [9, 9] 0 = none :=
  c10_nonunique_arc_panics 1 8192 [{ mixEntryEx with refCount := 2 }] [9, 9] 0
    (by decide) ⟨{ mixEntryEx with refCount := 2 }, by simp, by decide⟩
/-! ## Claim C8 -/

/-- Counterexample to C8: (1) with equal input and output channel counts
of 4 the mapper copies only channels 0 and 1 and leaves channels 2 and 3
at their previous buffer contents, so the mapping is not the identity;
(2) with mono input and 4 output channels, channels 2 and 3 keep their
previous contents (here 7) instead of being zeroed. -/
theorem c8_counterexample :
    (ChannelMappedSource.write
        { source := { pending := [1, 2, 3, 4], finished := false },
          inputChannels := 4, outputChannels := 4, bufferLen := 16384 } [9, 9, 9, 9]).2.1
      = [1, 2, 9, 9]
    ∧ ([1, 2, 9, 9] : List Int) ≠ [1, 2, 3, 4]
    ∧ (ChannelMappedSource.write
        { source := { pending := [5], finished := false },
          inputChannels := 1, outputChannels := 4, bufferLen := 16384 } [7, 7, 7, 7]).2.1
      = [5, 5, 7, 7]
    ∧ ([5, 5, 7, 7] : List Int) ≠ [5, 5, 0, 0] := by
  decide

/-- C8, amended: every mapper write maps the produced whole frames as
follows — output channel 0 always receives input channel 0; when the
output has at least 2 channels, output channel 1 receives input channel 0
for mono input and input channel 1 otherwise; output channels 2..N and
every sample beyond the produced frames keep their previous buffer
contents (nothing is zeroed — the code assumes the rest is implicitly
silence). In particular the mapping is the identity per frame only for
equal channel counts of 1 or 2; for equal counts above 2 the channels
from 2 on are left untouched. -/
theorem c8_channel_mapping :
    (∀ (s : ChannelMappedSource) (out : List Int),
      ChannelMappedSource.write s out =
        ({ s with source :=
            (s.source.write
              (min ((out.length / s.outputChannels) * s.inputChannels) s.bufferLen)).2 },
          mapWriteFrames s.inputChannels s.outputChannels (mapperFrameCount s out.length)
            (mapperChunk s out.length) out,
          out.length))
    ∧ (∀ (ic oc n : Nat) (inp out : List Int) (j k : Nat),
        1 ≤ ic → n * oc ≤ out.length → j < n → k < oc →
        (mapWriteFrames ic oc n inp out).getD (j * oc + k) 0 =
          (if k = 0 then inp.getD (j * ic) 0
           else if k = 1 then
             (if ic = 1 then inp.getD (j * ic) 0 else inp.getD (j * ic + 1) 0)
           else out.getD (j * oc + k) 0))
    ∧ (∀ (ic oc n : Nat) (inp out : List Int) (m : Nat), n * oc ≤ out.length → n * oc ≤ m →
        (mapWriteFrames ic oc n inp out).getD m 0 = out.getD m 0)
    ∧ (∀ (ic oc n : Nat) (inp out : List Int), n * oc ≤ out.length →
        (mapWriteFrames ic oc n inp out).length = out.length) :=
  ⟨fun _ _ => rfl,
   fun ic oc n inp out j k hic h hj hk => mapWriteFrames_getD_frame ic oc hic n inp out j k h hj hk,
   fun ic oc n inp out m h hm => mapWriteFrames_getD_tail ic oc n inp out m h hm,
   fun ic oc n inp out h => mapWriteFrames_length ic oc n inp out h⟩

/-- Witness for C8's amended theorem: channel 2 of a mono-to-4 mapping
keeps the previous buffer value, the tail beyond the produced frames is
untouched, and the output length is preserved, all at concrete inputs. -/
theorem c8_channel_mapping_witness :
    ((1 : Nat) ≤ 1 ∧ 1 * 4 ≤ ([7, 7, 7, 7] : List Int).length ∧ (0 : Nat) < 1 ∧ (2 : Nat) < 4)
    ∧ (mapWriteFrames 1 4 1 [5] [7, 7, 7, 7]).getD (0 * 4 + 2) 0 =
        (if (2 : Nat) = 0 then ([5] : List Int).getD (0 * 1) 0
         else if (2 : Nat) = 1 then
           (if (1 : Nat) = 1 then ([5] : List Int).getD (0 * 1) 0
            else ([5] : List Int).getD (0 * 1 + 1) 0)
         else ([7, 7, 7, 7] : List Int).getD (0 * 4 + 2) 0)
    ∧ (mapWriteFrames 4 4 1 [1, 2, 3, 4] [9, 9, 9, 9, 9]).getD 4 0
        = ([9, 9, 9, 9, 9] : List Int).getD 4 0
    ∧ (mapWriteFrames 4 4 1 [1, 2, 3, 4] [9, 9, 9, 9]).length
        = ([9, 9, 9, 9] : List Int).length :=
  ⟨⟨by decide, by decide, by decide, by decide⟩,
   c8_channel_mapping.2.1 1 4 1 [5] [7, 7, 7, 7] 0 2 (by decide) (by decide) (by decide)
     (by decide),
   c8_channel_mapping.2.2.1 4 4 1 [1, 2, 3, 4] [9, 9, 9, 9, 9] 4 (by decide) (by decide),
   c8_channel_mapping.2.2.2 4 4 1 [1, 2, 3, 4] [9, 9, 9, 9] (by decide)⟩
/-! ## Additivity of the mixer renderer -/

theorem addSamples_length (out c : List Int) : (addSamples out c).length = out.length := by
  induction out generalizing c with
  | nil => cases c <;> rfl
  | cons o t ih =>
      cases c with
      | nil => rfl
      | cons c0 cs => simpa [addSamples] using ih cs

theorem addInto_length (out : List Int) (s : Nat) (c : List Int) :
    (addInto out s c).length = out.length := by
  induction out generalizing s with
  | nil => cases s <;> simp [addInto, addSamples_length]
  | cons o t ih =>
      cases s with
      | zero => simpa [addInto] using addSamples_length (o :: t) c
      | succ s' => simpa [addInto] using ih s'

theorem zipAdd_length (a b : List Int) (h : a.length = b.length) :
    (zipAdd a b).length = b.length := by
  simp [zipAdd, h]

theorem zipAdd_getD (a b : List Int) (h : a.length = b.length) (i : Nat) :
    (zipAdd a b).getD i 0 = a.getD i 0 + b.getD i 0 := by
  induction a generalizing b i with
  | nil =>
      cases b with
      | nil => simp [zipAdd]
      | cons b0 bs => simp at h
  | cons a0 as ih =>
      cases b with
      | nil => simp at h
      | cons b0 bs =>
          cases i with
          | zero => rfl
          | succ j => simpa [zipAdd] using ih bs (by simpa using h) j

theorem zipSub_getD (a b : List Int) (h : a.length = b.length) (i : Nat) :
    (zipSub a b).getD i 0 = a.getD i 0 - b.getD i 0 := by
  induction a generalizing b i with
  | nil =>
      cases b with
      | nil => simp [zipSub]
      | cons b0 bs => simp at h
  | cons a0 as ih =>
      cases b with
      | nil => simp at h
      | cons b0 bs =>
          cases i with
          | zero => rfl
          | succ j => simpa [zipSub] using ih bs (by simpa using h) j

theorem zipAdd_zipSub (x y : List Int) (h : x.length = y.length) :
    zipAdd (zipSub x y) y = x := by
  induction x generalizing y with
  | nil =>
      cases y with
      | nil => rfl
      | cons y0 ys => simp at h
  | cons x0 xs ih =>
      cases y with
      | nil => simp at h
      | cons y0 ys =>
          show (x0 - y0 + y0) :: zipAdd (zipSub xs ys) ys = x0 :: xs
          rw [ih ys (by simpa using h)]
          congr 1
          ring

theorem addSamples_linear (a b c : List Int) :
    addSamples (zipAdd a b) c = zipAdd a (addSamples b c) := by
  induction a generalizing b c with
  | nil =>
      cases b with
      | nil => cases c <;> rfl
      | cons b0 bs => cases c <;> rfl
  | cons a0 as ih =>
      cases b with
      | nil => cases c <;> rfl
      | cons b0 bs =>
          cases c with
          | nil => rfl
          | cons c0 cs =>
              show (a0 + b0 + c0) :: addSamples (zipAdd as bs) cs
                  = (a0 + (b0 + c0)) :: zipAdd as (addSamples bs cs)
              rw [ih bs cs]
              congr 1
              ring

theorem addInto_linear (a b : List Int) (s : Nat) (c : List Int) :
    addInto (zipAdd a b) s c = zipAdd a (addInto b s c) := by
  induction a generalizing b s with
  | nil =>
      cases b with
      | nil => cases s <;> cases c <;> rfl
      | cons b0 bs => cases s <;> cases c <;> rfl
  | cons a0 as ih =>
      cases b with
      | nil => cases s <;> cases c <;> rfl
      | cons b0 bs =>
          cases s with
          | zero => exact addSamples_linear (a0 :: as) (b0 :: bs) c
          | succ s' =>
              show (a0 + b0) :: addInto (zipAdd as bs) s' c
                  = (a0 + b0) :: zipAdd as (addInto bs s' c)
              rw [ih bs s']

theorem addInto_getD_lt (out : List Int) (s : Nat) (c : List Int) (i : Nat) (h : i < s) :
    (addInto out s c).getD i 0 = out.getD i 0 := by
  induction out generalizing s i with
  | nil => cases s with
      | zero => exact absurd h (Nat.not_lt_zero i)
      | succ s' => simp [addInto]
  | cons o t ih =>
      cases s with
      | zero => exact absurd h (Nat.not_lt_zero i)
      | succ s' =>
          cases i with
          | zero => rfl
          | succ j => simpa [addInto] using ih s' j (Nat.lt_of_succ_lt_succ h)

theorem addInto_getD_head (out : List Int) (s : Nat) (c0 : Int) (cs : List Int)
    (h : s < out.length) :
    (addInto out s (c0 :: cs)).getD s 0 = out.getD s 0 + c0 := by
  induction out generalizing s with
  | nil => simp at h
  | cons o t ih =>
      cases s with
      | zero => rfl
      | succ s' => simpa [addInto] using ih s' (Nat.lt_of_succ_lt_succ h)
theorem renderLoop_out_length (cc tempLen pos pid : Nat) (stopTime : Option Nat) :
    ∀ (fuel : Nat) (out : List Int) (total : Nat) (src : MSource),
      (renderLoop cc tempLen pos pid stopTime fuel out total src).out.length = out.length := by
  intro fuel
  induction fuel with
  | zero => intro out total src; rfl
  | succ n ih =>
      intro out total src
      unfold renderLoop
      by_cases hc : total ≥ out.length
      · rw [if_pos hc]
      · rw [if_neg hc]
        by_cases hf : (src.write (iterToWrite cc tempLen pos total out.length stopTime)).2.finished
        · rw [if_pos hf]
        · rw [if_neg hf]
          show (LoopResult.withStops _ _).out.length = out.length
          simp only [LoopResult.withStops]
          rw [ih, addInto_length]

theorem renderLoop_linear (cc tempLen pos pid : Nat) (stopTime : Option Nat) :
    ∀ (fuel : Nat) (a b : List Int) (total : Nat) (src : MSource), a.length = b.length →
      renderLoop cc tempLen pos pid stopTime fuel (zipAdd a b) total src
        = LoopResult.withAdd a (renderLoop cc tempLen pos pid stopTime fuel b total src) := by
  intro fuel
  induction fuel with
  | zero => intro a b total src h; rfl
  | succ n ih =>
      intro a b total src h
      have hlen : (zipAdd a b).length = b.length := zipAdd_length a b h
      unfold renderLoop
      rw [hlen]
      by_cases hc : total ≥ b.length
      · rw [if_pos hc, if_pos hc]; rfl
      · rw [if_neg hc, if_neg hc]
        by_cases hf : (src.write (iterToWrite cc tempLen pos total b.length stopTime)).2.finished
        · rw [if_pos hf, if_pos hf]; rfl
        · rw [if_neg hf, if_neg hf]
          rw [addInto_linear a b total _]
          rw [ih a (addInto b total (src.write
              (iterToWrite cc tempLen pos total b.length stopTime)).1) (total + _) _
            (by rw [addInto_length]; exact h)]
          rfl

theorem renderLoop_getD_lt (cc tempLen pos pid : Nat) (stopTime : Option Nat) :
    ∀ (fuel : Nat) (out : List Int) (total : Nat) (src : MSource) (i : Nat), i < total →
      (renderLoop cc tempLen pos pid stopTime fuel out total src).out.getD i 0
        = out.getD i 0 := by
  intro fuel
  induction fuel with
  | zero => intro out total src i _; rfl
  | succ n ih =>
      intro out total src i hi
      unfold renderLoop
      by_cases hc : total ≥ out.length
      · rw [if_pos hc]
      · rw [if_neg hc]
        by_cases hf : (src.write (iterToWrite cc tempLen pos total out.length stopTime)).2.finished
        · rw [if_pos hf]
        · rw [if_neg hf]
          show (LoopResult.withStops _ _).out.getD i 0 = out.getD i 0
          simp only [LoopResult.withStops]
          rw [ih _ _ _ i (by omega), addInto_getD_lt _ _ _ i hi]

theorem renderOne_out_length (cc tempLen pos : Nat) (out : List Int) (e : PlayingEntry)
    (o : List Int) (e' : PlayingEntry) (st : List Nat)
    (h : renderOne cc tempLen pos out e = RenderOutcome.ok o e' st) : o.length = out.length := by
  unfold renderOne at h
  split_ifs at h
  unfold loopToOutcome at h
  cases h
  exact renderLoop_out_length cc tempLen pos e.playbackId e.stopTime (out.length + 1) out
    (entryStartOffset cc pos e) e.source

theorem renderOne_linear_match (cc tempLen pos : Nat) (a b : List Int) (e : PlayingEntry)
    (h : a.length = b.length) :
    renderOne cc tempLen pos (zipAdd a b) e =
      (match renderOne cc tempLen pos b e with
       | RenderOutcome.ok o e' st => RenderOutcome.ok (zipAdd a o) e' st
       | x => x) := by
  have hlen : (zipAdd a b).length = b.length := zipAdd_length a b h
  unfold renderOne
  rw [hlen]
  by_cases h1 : e.startTime > pos ∧ e.startTime - pos ≥ b.length / cc
  · rw [if_pos h1, if_pos h1]
  · rw [if_neg h1, if_neg h1]
    by_cases h2 : e.refCount ≠ 1
    · rw [if_pos h2, if_pos h2]
    · rw [if_neg h2, if_neg h2]
      rw [renderLoop_linear cc tempLen pos e.playbackId e.stopTime (b.length + 1) a b
        (entryStartOffset cc pos e) e.source h]
      rfl

theorem renderOne_linear_panic (cc tempLen pos : Nat) (a b : List Int) (e : PlayingEntry)
    (h : a.length = b.length) (hro : renderOne cc tempLen pos b e = RenderOutcome.panic) :
    renderOne cc tempLen pos (zipAdd a b) e = RenderOutcome.panic := by
  rw [renderOne_linear_match cc tempLen pos a b e h, hro]

theorem renderOne_linear_break (cc tempLen pos : Nat) (a b : List Int) (e : PlayingEntry)
    (h : a.length = b.length) (hro : renderOne cc tempLen pos b e = RenderOutcome.breakAll) :
    renderOne cc tempLen pos (zipAdd a b) e = RenderOutcome.breakAll := by
  rw [renderOne_linear_match cc tempLen pos a b e h, hro]

theorem renderOne_linear_ok (cc tempLen pos : Nat) (a b : List Int) (e : PlayingEntry)
    (o : List Int) (e' : PlayingEntry) (st : List Nat) (h : a.length = b.length)
    (hro : renderOne cc tempLen pos b e = RenderOutcome.ok o e' st) :
    renderOne cc tempLen pos (zipAdd a b) e = RenderOutcome.ok (zipAdd a o) e' st := by
  rw [renderOne_linear_match cc tempLen pos a b e h, hro]

theorem renderAll_some_out_length (cc tempLen pos : Nat) :
    ∀ (l : List PlayingEntry) (out : List Int) (r : RenderAllResult),
      renderAll cc tempLen pos l out = some r → r.out.length = out.length := by
  intro l
  induction l with
  | nil =>
      intro out r h
      have := Option.some.inj h
      rw [← this]
  | cons e rest ih =>
      intro out r h
      unfold renderAll at h
      cases hro : renderOne cc tempLen pos out e with
      | panic => rw [hro] at h; cases h
      | breakAll =>
          rw [hro] at h
          have := Option.some.inj h
          rw [← this]
      | ok o e' st =>
          rw [hro] at h
          dsimp only [] at h
          cases hra : renderAll cc tempLen pos rest o with
          | none => rw [hra] at h; cases h
          | some r2 =>
              rw [hra] at h
              have hr := Option.some.inj h
              rw [← hr]
              show r2.out.length = out.length
              rw [ih o r2 hra]
              exact renderOne_out_length cc tempLen pos out e o e' st hro

theorem renderAll_isSome (cc tempLen pos : Nat) :
    ∀ (l : List PlayingEntry) (out : List Int),
      (∀ x ∈ l, x.refCount = 1) →
      ∃ r, renderAll cc tempLen pos l out = some r := by
  intro l
  induction l with
  | nil => intro out _; exact ⟨_, rfl⟩
  | cons e rest ih =>
      intro out href
      unfold renderAll
      cases hro : renderOne cc tempLen pos out e with
      | panic =>
          exfalso
          unfold renderOne at hro
          split_ifs at hro with h1 h2
          all_goals first
          | exact h2 (href e (List.mem_cons_self e rest))
          | (unfold loopToOutcome at hro; cases hro)
      | breakAll => exact ⟨_, rfl⟩
      | ok o e' st =>
          dsimp only []
          obtain ⟨r2, hr2⟩ := ih o (fun x hx => href x (List.mem_cons_of_mem e hx))
          rw [hr2]
          exact ⟨_, rfl⟩

theorem renderAll_linear (cc tempLen pos : Nat) :
    ∀ (l : List PlayingEntry) (a b : List Int), a.length = b.length →
      renderAll cc tempLen pos l (zipAdd a b)
        = (renderAll cc tempLen pos l b).map
            (fun r => ⟨zipAdd a r.out, r.entries, r.stops, r.broke⟩) := by
  intro l
  induction l with
  | nil => intro a b h; rfl
  | cons e rest ih =>
      intro a b h
      cases hro : renderOne cc tempLen pos b e with
      | panic =>
          unfold renderAll
          rw [renderOne_linear_panic cc tempLen pos a b e h hro, hro]
          rfl
      | breakAll =>
          unfold renderAll
          rw [renderOne_linear_break cc tempLen pos a b e h hro, hro]
          rfl
      | ok o e' st =>
          unfold renderAll
          rw [renderOne_linear_ok cc tempLen pos a b e o e' st h hro, hro]
          dsimp only []
          have hao : a.length = o.length := by
            rw [renderOne_out_length cc tempLen pos b e o e' st hro]
            exact h
          rw [ih a o hao]
          cases hra : renderAll cc tempLen pos rest o <;> rfl

theorem renderAll_append (cc tempLen pos : Nat) :
    ∀ (l1 l2 : List PlayingEntry) (out : List Int),
      renderAll cc tempLen pos (l1 ++ l2) out =
        match renderAll cc tempLen pos l1 out with
        | none => none
        | some r =>
            if r.broke then some ⟨r.out, r.entries ++ l2, r.stops, true⟩
            else
              (renderAll cc tempLen pos l2 r.out).map
                (fun r2 => ⟨r2.out, r.entries ++ r2.entries, r.stops ++ r2.stops, r2.broke⟩) := by
  intro l1
  induction l1 with
  | nil =>
      intro l2 out
      show renderAll cc tempLen pos l2 out = _
      dsimp only [renderAll]
      cases hra : renderAll cc tempLen pos l2 out with
      | none => rfl
      | some r2 => simp
  | cons e l1' ih =>
      intro l2 out
      rw [List.cons_append]
      rw [renderAll]
      conv_rhs => rw [renderAll]
      cases hro : renderOne cc tempLen pos out e with
      | panic => rfl
      | breakAll =>
          dsimp only []
          simp [List.cons_append]
      | ok o e' st =>
          dsimp only []
          rw [ih l2 o]
          cases hra : renderAll cc tempLen pos l1' o with
          | none => rfl
          | some r =>
              dsimp only []
              by_cases hb : r.broke
              · simp only [hb, if_true]
                simp [List.cons_append]
              · simp only [hb, Bool.false_eq_true, if_false]
                cases hrb : renderAll cc tempLen pos l2 r.out with
                | none => rfl
                | some r2 => simp [List.cons_append, List.append_assoc]

theorem renderOne_break_of (cc tempLen pos : Nat) (out : List Int) (e : PlayingEntry)
    (h : e.startTime > pos ∧ e.startTime - pos ≥ out.length / cc) :
    renderOne cc tempLen pos out e = RenderOutcome.breakAll := by
  unfold renderOne
  rw [if_pos h]

theorem renderOne_getD_lt_offset (cc tempLen pos : Nat) (out : List Int) (e : PlayingEntry)
    (o : List Int) (e' : PlayingEntry) (st : List Nat)
    (h : renderOne cc tempLen pos out e = RenderOutcome.ok o e' st)
    (i : Nat) (hi : i < entryStartOffset cc pos e) :
    o.getD i 0 = out.getD i 0 := by
  unfold renderOne at h
  split_ifs at h
  unfold loopToOutcome at h
  cases h
  exact renderLoop_getD_lt cc tempLen pos e.playbackId e.stopTime (out.length + 1) out
    (entryStartOffset cc pos e) e.source i hi

theorem zipSub_length (a b : List Int) (h : a.length = b.length) :
    (zipSub a b).length = b.length := by
  simp [zipSub, h]

theorem renderAll_insert_getD_lt (cc tempLen pos : Nat) (out : List Int)
    (l1 l2 : List PlayingEntry) (e : PlayingEntry)
    (href : ∀ x ∈ l1 ++ e :: l2, x.refCount = 1)
    (hsort : ∀ b ∈ l2, e.startTime ≤ b.startTime)
    (hfut : pos < e.startTime) :
    ∃ r r', renderAll cc tempLen pos (l1 ++ e :: l2) out = some r
      ∧ renderAll cc tempLen pos (l1 ++ l2) out = some r'
      ∧ ∀ i, i < (e.startTime - pos) * cc → r.out.getD i 0 = r'.out.getD i 0 := by
  have href1 : ∀ x ∈ l1, x.refCount = 1 := fun x hx => href x (List.mem_append_left _ hx)
  have hrefe : e.refCount = 1 := href e (by simp)
  have href2 : ∀ x ∈ l2, x.refCount = 1 := fun x hx => href x (by simp [hx])
  obtain ⟨rb, hrb⟩ := renderAll_isSome cc tempLen pos (l1 ++ e :: l2) out href
  obtain ⟨rs, hrs⟩ := renderAll_isSome cc tempLen pos (l1 ++ l2) out (by
    intro x hx
    rcases List.mem_append.mp hx with h | h
    · exact href1 x h
    · exact href2 x h)
  refine ⟨rb, rs, hrb, hrs, ?_⟩
  intro i hi
  obtain ⟨r1, hr1⟩ := renderAll_isSome cc tempLen pos l1 out href1
  have hA := renderAll_append cc tempLen pos l1 (e :: l2) out
  have hB := renderAll_append cc tempLen pos l1 l2 out
  rw [hr1] at hA hB
  dsimp only [] at hA hB
  rw [hrb] at hA
  rw [hrs] at hB
  by_cases hbk : r1.broke
  · rw [if_pos hbk] at hA hB
    have hrb' := Option.some.inj hA
    have hrs' := Option.some.inj hB
    rw [hrb', hrs']
  · rw [if_neg hbk] at hA hB
    by_cases hebrk : e.startTime - pos ≥ r1.out.length / cc
    · have hre : renderAll cc tempLen pos (e :: l2) r1.out
          = some ⟨r1.out, e :: l2, [], true⟩ := by
        rw [renderAll, renderOne_break_of cc tempLen pos r1.out e ⟨hfut, hebrk⟩]
      rw [hre] at hA
      dsimp only [Option.map] at hA
      have hrb' := Option.some.inj hA
      cases l2 with
      | nil =>
          have hnil : renderAll cc tempLen pos ([] : List PlayingEntry) r1.out
              = some ⟨r1.out, [], [], false⟩ := rfl
          rw [hnil] at hB
          dsimp only [Option.map] at hB
          have hrs' := Option.some.inj hB
          rw [hrb', hrs']
      | cons b l2' =>
          have hbfut : pos < b.startTime :=
            lt_of_lt_of_le hfut (hsort b (List.mem_cons_self b l2'))
          have hbbrk : b.startTime - pos ≥ r1.out.length / cc :=
            le_trans hebrk (Nat.sub_le_sub_right (hsort b (List.mem_cons_self b l2')) pos)
          have hre2 : renderAll cc tempLen pos (b :: l2') r1.out
              = some ⟨r1.out, b :: l2', [], true⟩ := by
            rw [renderAll, renderOne_break_of cc tempLen pos r1.out b ⟨hbfut, hbbrk⟩]
          rw [hre2] at hB
          dsimp only [Option.map] at hB
          have hrs' := Option.some.inj hB
          rw [hrb', hrs']
    · have hnb : ¬ (e.startTime > pos ∧ e.startTime - pos ≥ r1.out.length / cc) := by
        intro hh
        exact absurd hh.2 hebrk
      have hok := renderOne_ok_of cc tempLen pos r1.out e hnb hrefe
      set L := renderLoop cc tempLen pos e.playbackId e.stopTime (r1.out.length + 1) r1.out
        (entryStartOffset cc pos e) e.source with hL
      have hLlen : L.out.length = r1.out.length := by
        rw [hL]
        exact renderLoop_out_length cc tempLen pos e.playbackId e.stopTime (r1.out.length + 1)
          r1.out (entryStartOffset cc pos e) e.source
      have hLoff : ∀ j, j < entryStartOffset cc pos e → L.out.getD j 0 = r1.out.getD j 0 := by
        intro j hj
        rw [hL]
        exact renderLoop_getD_lt cc tempLen pos e.playbackId e.stopTime (r1.out.length + 1)
          r1.out (entryStartOffset cc pos e) e.source j hj
      obtain ⟨r2, hr2⟩ := renderAll_isSome cc tempLen pos l2 r1.out href2
      rw [hr2] at hB
      dsimp only [Option.map] at hB
      have hrs' := Option.some.inj hB
      have hsubl : (zipSub L.out r1.out).length = r1.out.length := zipSub_length _ _ hLlen
      have hzs : zipAdd (zipSub L.out r1.out) r1.out = L.out := zipAdd_zipSub _ _ hLlen
      have hlin := renderAll_linear cc tempLen pos l2 (zipSub L.out r1.out) r1.out hsubl
      rw [hzs] at hlin
      rw [hr2] at hlin
      dsimp only [Option.map] at hlin
      have hbig : renderAll cc tempLen pos (e :: l2) r1.out
          = some ⟨zipAdd (zipSub L.out r1.out) r2.out,
              { e with source := L.source, isActive := L.active } :: r2.entries,
              L.stops ++ r2.stops, r2.broke⟩ := by
        rw [renderAll, hok]
        unfold loopToOutcome
        dsimp only []
        rw [hlin]
      rw [hbig] at hA
      dsimp only [Option.map] at hA
      have hrb' := Option.some.inj hA
      rw [hrb', hrs']
      dsimp only []
      have hr2len : r2.out.length = r1.out.length :=
        renderAll_some_out_length cc tempLen pos l2 r1.out r2 hr2
      rw [zipAdd_getD _ _ (by rw [hsubl, hr2len]) i]
      have hoff : entryStartOffset cc pos e = (e.startTime - pos) * cc := by
        simp [entryStartOffset, hfut]
      have hzero : (zipSub L.out r1.out).getD i 0 = 0 := by
        rw [zipSub_getD _ _ hLlen i, hLoff i (by rw [hoff]; exact hi)]
        exact sub_self _
      rw [hzero, zero_add]

theorem renderOne_first_sample (cc tempLen pos : Nat) (out : List Int) (e : PlayingEntry)
    (hcc : 0 < cc) (hstop : e.stopTime = none) (hfin : e.source.finished = false)
    (hfut : pos < e.startTime) (hlt : e.startTime - pos < out.length / cc)
    (htmp : 1 ≤ tempLen) (o : List Int) (e' : PlayingEntry) (st : List Nat)
    (h : renderOne cc tempLen pos out e = RenderOutcome.ok o e' st) :
    o.getD ((e.startTime - pos) * cc) 0
      = out.getD ((e.startTime - pos) * cc) 0 + e.source.pending.headI := by
  have hofflt : (e.startTime - pos) * cc < out.length :=
    lt_of_lt_of_le (mul_lt_mul_of_pos_right hlt hcc) (Nat.div_mul_le_self _ _)
  have hoffeq : entryStartOffset cc pos e = (e.startTime - pos) * cc := by
    simp [entryStartOffset, hfut]
  have hnb : ¬ (e.startTime > pos ∧ e.startTime - pos ≥ out.length / cc) := by
    intro hh
    exact absurd hh.2 (Nat.not_le.mpr hlt)
  by_cases hre : e.refCount ≠ 1
  · unfold renderOne at h
    rw [if_neg hnb, if_pos hre] at h
    cases h
  · have hok := renderOne_ok_of cc tempLen pos out e hnb (not_ne_iff.mp hre)
    rw [hok] at h
    unfold loopToOutcome at h
    cases h
    rw [← hoffeq, hstop]
    rw [renderLoop]
    rw [if_neg (Nat.not_le.mpr (by rw [hoffeq]; exact hofflt))]
    rw [show iterToWrite cc tempLen pos (entryStartOffset cc pos e) out.length none
        = min (out.length - entryStartOffset cc pos e) tempLen from by
      simp [iterToWrite, sendStopNow, samplesUntilStop]]
    cases hp : e.source.pending with
    | nil => simp [MSource.write, hp, hfin]
    | cons p ps =>
        have hmin1 : 1 ≤ min (out.length - entryStartOffset cc pos e) tempLen := by
          refine le_min ?_ htmp
          rw [hoffeq]
          omega
        obtain ⟨k, hk⟩ : ∃ k, min (out.length - entryStartOffset cc pos e) tempLen = k + 1 :=
          ⟨min (out.length - entryStartOffset cc pos e) tempLen - 1, by omega⟩
        rw [hk]
        simp only [MSource.write, hp, List.take_succ_cons, hfin]
        rw [if_neg (by simp)]
        simp only [LoopResult.withStops]
        rw [renderLoop_getD_lt]
        · rw [addInto_getD_head]
          · simp [hp]
          · rw [hoffeq]
            exact hofflt
        · simp

theorem renderAll_insert_break (cc tempLen pos : Nat) (out : List Int)
    (l1 l2 : List PlayingEntry) (e : PlayingEntry)
    (href1 : ∀ x ∈ l1, x.refCount = 1)
    (hfut : pos < e.startTime)
    (hbeyond : out.length / cc ≤ e.startTime - pos) :
    ∃ r1, renderAll cc tempLen pos l1 out = some r1 ∧
      renderAll cc tempLen pos (l1 ++ e :: l2) out
        = some ⟨r1.out, r1.entries ++ e :: l2, r1.stops, true⟩ := by
  obtain ⟨r1, hr1⟩ := renderAll_isSome cc tempLen pos l1 out href1
  refine ⟨r1, hr1, ?_⟩
  rw [renderAll_append, hr1]
  dsimp only []
  by_cases hb : r1.broke = true
  · rw [if_pos hb]
  · rw [if_neg hb]
    rw [renderAll]
    have hlen := renderAll_some_out_length cc tempLen pos l1 out r1 hr1
    rw [renderOne_break_of cc tempLen pos r1.out e ⟨hfut, by rw [hlen]; exact hbeyond⟩]
    simp

/-- C7: a source scheduled at a future start frame T0 contributes nothing
before T0 in a mixer render. (1) In a sorted playing list, removing an
entry whose start time lies strictly after the current position leaves
every output sample before its start offset unchanged, so frames before
T0 receive contributions only from the other (earlier-starting) sources.
(2) Rendering such an entry places its first pending source sample
exactly at output offset `(T0 - pos) * channel_count` and leaves all
earlier samples untouched. (3) When T0 lies at or beyond the end of the
current buffer, the `break 'all_sources` fires: the entry and every
later-sorted entry contribute nothing (output and stop messages are
exactly those of the preceding entries). -/
theorem c7_scheduled_start :
    (∀ (cc tempLen pos : Nat) (out : List Int) (l1 l2 : List PlayingEntry) (e : PlayingEntry),
        (∀ x ∈ l1 ++ e :: l2, x.refCount = 1) →
        (∀ b ∈ l2, e.startTime ≤ b.startTime) →
        pos < e.startTime →
        ∃ r r', renderAll cc tempLen pos (l1 ++ e :: l2) out = some r
          ∧ renderAll cc tempLen pos (l1 ++ l2) out = some r'
          ∧ ∀ i, i < (e.startTime - pos) * cc → r.out.getD i 0 = r'.out.getD i 0)
    ∧ (∀ (cc tempLen pos : Nat) (out : List Int) (e : PlayingEntry)
          (o : List Int) (e' : PlayingEntry) (st : List Nat),
        0 < cc → e.stopTime = none → e.source.finished = false →
        pos < e.startTime → e.startTime - pos < out.length / cc → 1 ≤ tempLen →
        renderOne cc tempLen pos out e = RenderOutcome.ok o e' st →
        o.getD ((e.startTime - pos) * cc) 0
            = out.getD ((e.startTime - pos) * cc) 0 + e.source.pending.headI
          ∧ ∀ i, i < (e.startTime - pos) * cc → o.getD i 0 = out.getD i 0)
    ∧ (∀ (cc tempLen pos : Nat) (out : List Int) (l1 l2 : List PlayingEntry) (e : PlayingEntry),
        (∀ x ∈ l1, x.refCount = 1) →
        pos < e.startTime →
        out.length / cc ≤ e.startTime - pos →
        ∃ r1, renderAll cc tempLen pos l1 out = some r1 ∧
          renderAll cc tempLen pos (l1 ++ e :: l2) out
            = some ⟨r1.out, r1.entries ++ e :: l2, r1.stops, true⟩) := by
  refine ⟨?_, ?_, ?_⟩
  · intro cc tempLen pos out l1 l2 e href hsort hfut
    exact renderAll_insert_getD_lt cc tempLen pos out l1 l2 e href hsort hfut
  · intro cc tempLen pos out e o e' st hcc hstop hfin hfut hlt htmp h
    refine ⟨renderOne_first_sample cc tempLen pos out e hcc hstop hfin hfut hlt htmp o e' st h,
      ?_⟩
    intro i hi
    refine renderOne_getD_lt_offset cc tempLen pos out e o e' st h i ?_
    have hoffeq : entryStartOffset cc pos e = (e.startTime - pos) * cc := by
      simp [entryStartOffset, hfut]
    rw [hoffeq]
    exact hi
  · intro cc tempLen pos out l1 l2 e href1 hfut hbeyond
    exact renderAll_insert_break cc tempLen pos out l1 l2 e href1 hfut hbeyond

theorem c7_scheduled_start_witness :
    (∃ r r', renderAll 2 8192 0
        ([] ++ (⟨true, 3, ⟨[1,1,1,1,1,1], false⟩, 1, 2, none⟩ : PlayingEntry) :: [])
        [9,9,9,9,9,9,9,9] = some r
      ∧ renderAll 2 8192 0 ([] ++ []) [9,9,9,9,9,9,9,9] = some r'
      ∧ ∀ i, i < 4 → r.out.getD i 0 = r'.out.getD i 0)
    ∧ (([9,9,9,9,10,10,10,10] : List Int).getD 4 0
          = ([9,9,9,9,9,9,9,9] : List Int).getD 4 0 + 1
        ∧ ∀ i, i < 4 →
          ([9,9,9,9,10,10,10,10] : List Int).getD i 0
            = ([9,9,9,9,9,9,9,9] : List Int).getD i 0)
    ∧ (∃ r1, renderAll 2 8192 0 [] [9,9,9,9,9,9,9,9] = some r1 ∧
        renderAll 2 8192 0
          ([] ++ (⟨true, 3, ⟨[1,1,1,1,1,1], false⟩, 1, 4, none⟩ : PlayingEntry) :: [])
          [9,9,9,9,9,9,9,9]
          = some ⟨r1.out,
              r1.entries ++ (⟨true, 3, ⟨[1,1,1,1,1,1], false⟩, 1, 4, none⟩ : PlayingEntry) :: [],
              r1.stops, true⟩) :=
  ⟨c7_scheduled_start.1 2 8192 0 [9,9,9,9,9,9,9,9] [] []
      ⟨true, 3, ⟨[1,1,1,1,1,1], false⟩, 1, 2, none⟩ (by decide) (by decide) (by decide),
    c7_scheduled_start.2.1 2 8192 0 [9,9,9,9,9,9,9,9]
      ⟨true, 3, ⟨[1,1,1,1,1,1], false⟩, 1, 2, none⟩
      [9,9,9,9,10,10,10,10] ⟨true, 3, ⟨[1,1], false⟩, 1, 2, none⟩ []
      (by decide) rfl rfl (by decide) (by decide) (by decide) (by decide),
    c7_scheduled_start.2.2 2 8192 0 [9,9,9,9,9,9,9,9] [] []
      ⟨true, 3, ⟨[1,1,1,1,1,1], false⟩, 1, 4, none⟩ (by decide) (by decide) (by decide)⟩
